import Mathlib

/-!
Verification development for the RL-agent-for-Path-planning repository.

The two Python navigator classes (robot_navigator.py, vision_navigator.py) are
shallowly embedded below.  Conventions of the embedding:

* Python ints are `ℤ`; positions are pairs `ℤ × ℤ`.
* Python float arithmetic is idealised as exact real arithmetic.  Every
  g-score the programs compute is a sum of the literals 1 and 1.414, hence an
  exact integer multiple of 1/500; g-scores are therefore stored as integers
  in units of 1/500 (the axis cost 1 is 500, the diagonal cost 1.414 is 707).
  Every f-score float has the shape `g/500 + sqrt h` with `h` a natural number
  (a squared Euclidean distance), represented exactly by the pair `(g, h)` and
  compared by an exact decision procedure (`fkeyLe`); comparisons of a
  distance `sqrt d` against an integer bound `m` are decided via `d < m * m`.
* Python dicts are association lists with shadowing insert; `heapq.heappop` is
  popping the minimum entry under the exact order on `(f, position)` tuples
  (`popMin`), mirroring Python tuple comparison.
* Unbounded `while` loops run on explicit fuel; for the A* loop, running out
  of fuel is the distinguished outcome `SearchOutcome.fuelOut`, kept apart
  from the program's genuine `None` result (`SearchOutcome.noPath`).  For the
  loops whose iteration count is bounded by the program itself (Bresenham, the
  optimizer, the capped direct walker) the fuel passed by the wrapper is an
  upper bound on the iterations the Python loop performs.
* Network / vision effects (`requests`, OpenCV sensing) are oracles supplied
  by an environment record; the functions under test consume their responses
  exactly where the Python code consults the server.
-/

abbrev Pos : Type := ℤ × ℤ

/-- Squared Euclidean distance between two integer points, as a natural
number.  Both Python A* heuristics and all obstacle-clearance tests compute
`sqrt` of this quantity. -/
def distSq (a b : Pos) : ℕ := ((a.1 - b.1) * (a.1 - b.1) + (a.2 - b.2) * (a.2 - b.2)).toNat

/-- Exact decision of `sqrt d < m` for a squared distance `d` and an integer
bound `m` (the Python code compares the float `math.sqrt(d)` against `m`). -/
def distLt (d : ℕ) (m : ℤ) : Bool := 0 < m && (d : ℤ) < m * m

/-- Exact decision of `sqrt d > m` (used by the direct walker's loop guard). -/
def distGtB (d : ℕ) (m : ℤ) : Bool := m < 0 || m * m < (d : ℤ)

/-- Python `max(lo, min(hi, x))` clamping. -/
def clampZ (lo hi x : ℤ) : ℤ := max lo (min hi x)

/-- Chebyshev distance between two cells (the shape of the inflation square in
`get_obstacles`). -/
def cheb (p q : Pos) : ℤ := max |p.1 - q.1| |p.2 - q.2|

/-- Integer range `[lo, hi)` in ascending order, mirroring Python `range`. -/
def intRange (lo hi : ℤ) : List ℤ := (List.range (hi - lo).toNat).map fun (k : ℕ) => lo + (k : ℤ)

/-- Kernel-computable integer square root by upward search (`Nat.sqrt` is
defined by well-founded recursion and does not reduce inside kernel-checked
evaluations). -/
def natSqrtGo (n : ℕ) : ℕ → ℕ → ℕ
  | 0, k => k
  | f + 1, k => if (k + 1) * (k + 1) ≤ n then natSqrtGo n f (k + 1) else k

/-- Integer square root: the largest `k` with `k * k ≤ n`. -/
def natSqrt (n : ℕ) : ℕ := natSqrtGo n n 0

/-- Exact representation of an f-score float: the value `g/500 + sqrt h`, with
`g` the scaled integer g-score part and `h` a natural number (a squared
distance). -/
structure FKey where
  g : ℤ
  h : ℕ
deriving DecidableEq

/-- Real value denoted by an f-score key. -/
noncomputable def FKey.val (k : FKey) : ℝ := (k.g : ℝ) / 500 + Real.sqrt (k.h : ℝ)

/-- Exact decision procedure for `a.val ≤ b.val`, i.e. for the float
comparison `g₁/500 + sqrt h₁ ≤ g₂/500 + sqrt h₂` performed by the heap.
Scaling by 500 turns it into `sqrt (250000 h₁) ≤ sqrt (250000 h₂) + (g₂-g₁)`,
which is decided by isolating the square roots and squaring twice. -/
def fkeyLe (a b : FKey) : Bool :=
  let d : ℤ := b.g - a.g
  let A : ℤ := 250000 * (a.h : ℤ)
  let B : ℤ := 250000 * (b.h : ℤ)
  if 0 ≤ d then
    let c : ℤ := A - B - d * d
    if c ≤ 0 then true else decide (c * c ≤ 4 * (d * d) * B)
  else
    let c : ℤ := B - A - d * d
    if c < 0 then false else decide (4 * (d * d) * A ≤ c * c)

/-- Python tuple order on heap entries `(f, (x, y))`: compare the floats, then
break exact ties lexicographically on the position. -/
def posLtB (p q : Pos) : Bool := p.1 < q.1 || (p.1 = q.1 && p.2 < q.2)

/-- Strict order on heap entries, mirroring Python comparison of
`(f_score, position)` tuples. -/
def entryLt (a b : FKey × Pos) : Bool :=
  (fkeyLe a.1 b.1 && !fkeyLe b.1 a.1) ||
    (fkeyLe a.1 b.1 && fkeyLe b.1 a.1 && posLtB a.2 b.2)

/-- First minimal entry of `e :: es` under `entryLt`. -/
def minEntry : FKey × Pos → List (FKey × Pos) → FKey × Pos
  | m, [] => m
  | m, x :: xs => minEntry (if entryLt x m then x else m) xs

/-- Model of `heapq.heappop`: remove and return the minimum entry. -/
def popMin : List (FKey × Pos) → Option ((FKey × Pos) × List (FKey × Pos))
  | [] => none
  | e :: es =>
    let m := minEntry e es
    some (m, (e :: es).erase m)

/-- Lookup in an association list (Python dict read). -/
def alookup {α : Type} : List (Pos × α) → Pos → Option α
  | [], _ => none
  | (k, v) :: l, p => if p = k then some v else alookup l p

/-- Mutable search state of one `find_path` call: the open heap, the
`came_from` dict and the `g_score` dict (g-scores in units of 1/500).  The
`f_score` dict of the source is write-only apart from the value pushed
immediately after it is stored, so the computed key is pushed directly. -/
structure AState where
  openSet : List (FKey × Pos)
  cameFrom : List (Pos × Pos)
  gScore : List (Pos × ℤ)
deriving DecidableEq

/-- Parameters distinguishing the two planners' A* instantiations (`cost` in
units of 1/500). -/
structure AStarParams where
  neighbors : Pos → List Pos
  cost : Pos → Pos → ℤ
  isGoal : Pos → Bool
  hsq : Pos → ℕ

/-- Body of the `for neighbor in ...` loop of both `find_path` functions:
relax one neighbor, updating `came_from`, `g_score` and the heap when the
tentative g-score improves. -/
def relaxNeighbor (P : AStarParams) (current : Pos) (st : AState) (n : Pos) : AState :=
  let gc : ℤ := (alookup st.gScore current).getD 0
  let tg : ℤ := gc + P.cost current n
  let doUpdate : Bool :=
    match alookup st.gScore n with
    | none => true
    | some gn => decide (tg < gn)
  if doUpdate then
    { openSet := (⟨tg, P.hsq n⟩, n) :: st.openSet,
      cameFrom := (n, current) :: st.cameFrom,
      gScore := (n, tg) :: st.gScore }
  else st

/-- Relax every neighbor of `current` in order. -/
def expand (P : AStarParams) (current : Pos) (st : AState) : AState :=
  (P.neighbors current).foldl (relaxNeighbor P current) st

/-- Result of a fuelled A* run.  `noPath` is the program's `return None`;
`fuelOut` marks model fuel exhaustion and corresponds to no program result. -/
inductive SearchOutcome where
  | fuelOut
  | noPath
  | found (p : List Pos)
deriving DecidableEq

/-- The `while current in came_from:` reconstruction loop: collect the chain of
predecessors of `cur` (fuelled; a hypothetical `came_from` cycle would make the
Python loop diverge and makes this return `none`). -/
def chainToRoot (cf : List (Pos × Pos)) : ℕ → Pos → List Pos → Option (List Pos)
  | 0, cur, acc =>
    match alookup cf cur with
    | some _ => none
    | none => some acc
  | f + 1, cur, acc =>
    match alookup cf cur with
    | some prev => chainToRoot cf f prev (acc ++ [cur])
    | none => some acc

/-- Path reconstruction: follow `came_from` from `cur`, append `start`, and
reverse — exactly the reconstruction block of both `find_path` functions. -/
def reconstructPath (cf : List (Pos × Pos)) (start cur : Pos) : Option (List Pos) :=
  (chainToRoot cf (cf.length + 1) cur []).map fun v => (v ++ [start]).reverse

/-- The `while open_set:` loop shared by both planners. -/
def astarGo (P : AStarParams) (start : Pos) : ℕ → AState → SearchOutcome × AState
  | 0, st => (.fuelOut, st)
  | fuel + 1, st =>
    match popMin st.openSet with
    | none => (.noPath, st)
    | some (e, rest) =>
      let current := e.2
      let st1 : AState := { st with openSet := rest }
      if P.isGoal current then
        match reconstructPath st1.cameFrom start current with
        | some p => (.found p, st1)
        | none => (.fuelOut, st1)
      else astarGo P start fuel (expand P current st1)

/-- One complete A* call: the heap starts as `[(0, start)]` (the literal key 0
pushed by the source) and `g_score = {start: 0}`. -/
def astarRun (P : AStarParams) (start : Pos) (fuel : ℕ) : SearchOutcome × AState :=
  astarGo P start fuel ⟨[(⟨0, 0⟩, start)], [], [(start, 0)]⟩

/-! ## robot_navigator.py -/

/-- Instance attributes set by `RobotNavigator.__init__` (defaults are the
constructor's literals). -/
structure RobotNavigator where
  grid_size : ℤ := 10
  grid_width : ℤ := 65
  grid_height : ℤ := 60
  start : Pos := (32, 30)
  goal : Pos := (55, 8)
  robot_size : ℤ := 18
  obstacle_size : ℤ := 25

/-- The hard-coded `initial_obstacles` list of `get_obstacles`, as
`(x, y, size)` triples. -/
def initial_obstacles : List (ℤ × ℤ × ℤ) :=
  [(150, 120, 25), (450, 180, 25), (220, 300, 25), (380, 380, 25),
   (100, 450, 25), (500, 100, 25), (280, 220, 25), (420, 320, 25)]

/-- Grid cells blocked for one obstacle by `get_obstacles`: the obstacle's
center cell (floor division by the cell size) inflated by
`margin = max(1, (size + robot_size) // (2 * grid_size))` in each direction,
clipped to the grid bounds.  Loop order (dx outer, dy inner) is preserved. -/
def RobotNavigator.inflateCells (nav : RobotNavigator) (ox oy s : ℤ) : List Pos :=
  let xg := Int.fdiv ox nav.grid_size
  let yg := Int.fdiv oy nav.grid_size
  let m : ℤ := max 1 (Int.fdiv (s + nav.robot_size) (2 * nav.grid_size))
  (intRange (-m) (m + 1)).flatMap fun dx =>
    (intRange (-m) (m + 1)).filterMap fun dy =>
      let n : Pos := (xg + dx, yg + dy)
      if 0 ≤ n.1 ∧ n.1 < nav.grid_width ∧ 0 ≤ n.2 ∧ n.2 < nav.grid_height then some n
      else none

/-- The obstacle cell set `get_obstacles` builds on a successful server
response (the server response body is ignored; the hard-coded list is used). -/
def RobotNavigator.sensedObstacles (nav : RobotNavigator) : List Pos :=
  initial_obstacles.flatMap fun o => nav.inflateCells o.1 o.2.1 o.2.2

/-- Model of `get_obstacles`: on a non-200 status or a request exception the
function returns `False` (here `none`); on success it fills `self.obstacles`
from the hard-coded list and returns `True`. -/
def RobotNavigator.get_obstacles (nav : RobotNavigator) (serverOk : Bool) : Option (List Pos) :=
  if serverOk then some nav.sensedObstacles else none

/-- Possible server responses to the `/status` request of
`get_robot_position`: a parsed 200 body, a non-200 status, or an exception. -/
inductive PosResp where
  | ok (data : Pos)
  | httpError (code : ℕ)
  | exn
deriving DecidableEq

/-- Model of `get_robot_position`: all three branches (200, non-200,
exception) return `self.start`; the response data is never consulted. -/
def RobotNavigator.get_robot_position (nav : RobotNavigator) (r : PosResp) : Pos :=
  match r with
  | .ok _ => nav.start
  | .httpError _ => nav.start
  | .exn => nav.start

/-- The inline move-cost expression of the grid `find_path`, in units of
1/500: `1.414 if abs(dx) + abs(dy) == 2 else 1` becomes 707 and 500. -/
def gridMoveCost (c n : Pos) : ℤ :=
  if (n.1 - c.1).natAbs + (n.2 - c.2).natAbs = 2 then 707 else 500

/-- Model of `get_neighbors`: 8-directional neighbors in the source's order,
bounds-checked and excluding obstacle cells. -/
def RobotNavigator.get_neighbors (nav : RobotNavigator) (obstacles : List Pos)
    (pos : Pos) : List Pos :=
  [((0 : ℤ), (1 : ℤ)), (1, 0), (0, -1), (-1, 0), (1, 1), (-1, -1), (1, -1), (-1, 1)].filterMap
    fun d =>
      let n : Pos := (pos.1 + d.1, pos.2 + d.2)
      if 0 ≤ n.1 ∧ n.1 < nav.grid_width ∧ 0 ≤ n.2 ∧ n.2 < nav.grid_height ∧ n ∉ obstacles then
        some n
      else none

/-- A* parameters of the grid planner: 8-connected neighbors, cost 1 / 1.414
(scaled), exact goal-cell equality test, Euclidean heuristic to `goal`. -/
def RobotNavigator.gridParams (nav : RobotNavigator) (obstacles : List Pos)
    (goal : Pos) : AStarParams :=
  { neighbors := nav.get_neighbors obstacles,
    cost := gridMoveCost,
    isGoal := fun c => c == goal,
    hsq := fun c => distSq c goal }

/-- Model of the grid `find_path`, returning the outcome together with the
final search state (the state is needed to speak about final g-scores). -/
def RobotNavigator.find_pathFull (nav : RobotNavigator) (obstacles : List Pos)
    (start goal : Pos) (fuel : ℕ) : SearchOutcome × AState :=
  astarRun (nav.gridParams obstacles goal) start fuel

/-- Bresenham loop of `is_line_clear`, structurally fuelled.  The fuel
`|dx| + |dy| + 1` supplied by the wrapper bounds the iterations the Python
loop performs on the runs the program makes. -/
def bresGo (obstacles : List Pos) (x1 y1 dx dy sx sy : ℤ) :
    ℕ → ℤ → ℤ → ℤ → Bool
  | 0, _, _, _ => true
  | f + 1, x0, y0, err =>
    if (x0, y0) ∈ obstacles then false
    else if x0 = x1 ∧ y0 = y1 then true
    else
      let e2 := 2 * err
      let x0' := if e2 > -dy then x0 + sx else x0
      let err' := if e2 > -dy then err - dy else err
      let y0' := if e2 < dx then y0 + sy else y0
      let err'' := if e2 < dx then err' + dx else err'
      bresGo obstacles x1 y1 dx dy sx sy f x0' y0' err''

/-- Model of `is_line_clear`: rasterize the segment with Bresenham's algorithm
and report whether every visited cell is obstacle-free. -/
def RobotNavigator.is_line_clear (obstacles : List Pos) (s e : Pos) : Bool :=
  let dx := |e.1 - s.1|
  let dy := |e.2 - s.2|
  let sx : ℤ := if s.1 < e.1 then 1 else -1
  let sy : ℤ := if s.2 < e.2 then 1 else -1
  bresGo obstacles e.1 e.2 dx dy sx sy (dx.toNat + dy.toNat + 1) s.1 s.2 (dx - dy)

/-- Inner `while j > i + 1:` scan of `optimize_path`: starting from `j`, find
the largest index `> i + 1` whose straight segment from index `i` is clear
(`some j`), or `none` when the scan falls through to `j == i + 1`. -/
def scanBack (obstacles : List Pos) (path : List Pos) (i : ℕ) : ℕ → Option ℕ
  | 0 => none
  | j + 1 =>
    if i + 1 < j + 1 then
      if RobotNavigator.is_line_clear obstacles (path.getD i (0, 0)) (path.getD (j + 1) (0, 0))
      then some (j + 1)
      else scanBack obstacles path i j
    else none

/-- Outer `while i < len(path) - 1:` loop of `optimize_path`, structurally
fuelled (each iteration increases `i` by at least 1 and the loop stops at
`i = len - 1`, so the wrapper's fuel `len(path)` always suffices).  A
successful backward scan jumps `i` to the found index and keeps that
waypoint; otherwise the immediate next waypoint is kept. -/
def optGo (obstacles : List Pos) (path : List Pos) : ℕ → ℕ → List Pos → List Pos
  | 0, _, acc => acc
  | f + 1, i, acc =>
    if i < path.length - 1 then
      match scanBack obstacles path i (path.length - 1) with
      | some j => optGo obstacles path f j (acc ++ [path.getD j (0, 0)])
      | none => optGo obstacles path f (i + 1) (acc ++ [path.getD (i + 1) (0, 0)])
    else acc

/-- Model of `optimize_path`: paths of length at most 2 are returned
unchanged; otherwise run the greedy farthest-visible-waypoint loop starting
from `[path[0]]`. -/
def RobotNavigator.optimize_path (obstacles : List Pos) (path : List Pos) : List Pos :=
  if path.length ≤ 2 then path
  else optGo obstacles path path.length 0 [path.getD 0 (0, 0)]

/-! ## vision_navigator.py -/

/-- Instance attributes set by `VisionBasedNavigator.__init__`. -/
structure VisionBasedNavigator where
  canvas_width : ℤ := 650
  canvas_height : ℤ := 600
  robot_radius : ℤ := 18
  goal_size : ℤ := 15
  obstacle_size : ℤ := 25
  safety_margin : ℤ := 35
  step_size : ℤ := 8

/-- Model of `get_neighbors_with_margin`: 4-directional steps of `step_size`,
bounds-checked, rejecting positions strictly closer than `margin` to any
obstacle center. -/
def VisionBasedNavigator.get_neighbors_with_margin (v : VisionBasedNavigator)
    (obstacles : List Pos) (pos : Pos) (margin : ℤ) : List Pos :=
  [((0 : ℤ), v.step_size), (v.step_size, 0), (0, -v.step_size), (-v.step_size, 0)].filterMap
    fun d =>
      let n : Pos := (pos.1 + d.1, pos.2 + d.2)
      if 0 ≤ n.1 ∧ n.1 < v.canvas_width ∧ 0 ≤ n.2 ∧ n.2 < v.canvas_height ∧
          obstacles.all (fun o => !distLt (distSq n o) margin) = true then
        some n
      else none

/-- A* parameters of the continuous planner at a given margin: 4-neighbor
stride steps, unit cost (500 in scaled units), goal test
`dist < robot_radius * 2`, Euclidean heuristic. -/
def VisionBasedNavigator.visionParams (v : VisionBasedNavigator) (obstacles : List Pos)
    (goal : Pos) (margin : ℤ) : AStarParams :=
  { neighbors := fun p => v.get_neighbors_with_margin obstacles p margin,
    cost := fun _ _ => 500,
    isGoal := fun c => distLt (distSq c goal) (v.robot_radius * 2),
    hsq := fun c => distSq c goal }

/-- Model of the vision `find_path` at a given margin, with final state. -/
def VisionBasedNavigator.find_pathFull (v : VisionBasedNavigator) (start goal : Pos)
    (obstacles : List Pos) (margin : ℤ) (fuel : ℕ) : SearchOutcome × AState :=
  astarRun (v.visionParams obstacles goal margin) start fuel

/-- Exact value of `int((delta / distance) * step_size)` for the direct
walker, where `distance = sqrt D`: Python `int` truncates toward zero, and for
`a ≥ 0` the floor of `a / sqrt D` equals `⌊sqrt (a ^ 2 / D)⌋`. -/
def stepComponent (stride delta : ℤ) (D : ℕ) : ℤ :=
  if 0 ≤ stride * delta then (natSqrt ((stride * delta).toNat * (stride * delta).toNat / D) : ℤ)
  else -(natSqrt ((stride * delta).natAbs * (stride * delta).natAbs / D) : ℤ)

/-- Body of one `find_direct_path` iteration: compute the clamped stride step
toward the goal, deflecting along the dominant axis when the stepped point
would come within 20 px of an obstacle (the deflected coordinate is re-derived
from `current` while the other keeps its computed, clamped value; both are
clamped again, exactly as in the source). -/
def fdpStep (v : VisionBasedNavigator) (goal : Pos) (obstacles : List Pos)
    (current : Pos) : Pos :=
  let dx := goal.1 - current.1
  let dy := goal.2 - current.2
  let D := distSq current goal
  let nx0 := clampZ 0 (v.canvas_width - 1) (current.1 + stepComponent v.step_size dx D)
  let ny0 := clampZ 0 (v.canvas_height - 1) (current.2 + stepComponent v.step_size dy D)
  let safe := obstacles.all fun o => !distLt (distSq (nx0, ny0) o) 20
  if safe then (nx0, ny0)
  else if dy.natAbs < dx.natAbs then
    (clampZ 0 (v.canvas_width - 1)
      (if 0 < dx then current.1 + v.step_size else current.1 - v.step_size),
     clampZ 0 (v.canvas_height - 1) ny0)
  else
    (clampZ 0 (v.canvas_width - 1) nx0,
     clampZ 0 (v.canvas_height - 1)
      (if 0 < dy then current.2 + v.step_size else current.2 - v.step_size))

/-- Loop of `find_direct_path`, structurally fuelled.  Each iteration appends
exactly one point and the loop breaks as soon as the path exceeds 100 points,
so the wrapper's fuel of 101 always outlasts the program's own cap. -/
def fdpGo (v : VisionBasedNavigator) (goal : Pos) (obstacles : List Pos) :
    ℕ → Pos → List Pos → List Pos
  | 0, _, path => path
  | f + 1, current, path =>
    if distGtB (distSq current goal) v.robot_radius = false then path
    else if distSq current goal = 0 then path
    else
      let next := fdpStep v goal obstacles current
      if 100 < (path ++ [next]).length then path ++ [next]
      else fdpGo v goal obstacles f next (path ++ [next])

/-- Model of `find_direct_path`: walk straight toward the goal with stride
`step_size`, deflecting along the dominant axis when the next point would come
within 20 px of an obstacle; capped once the path exceeds 100 points. -/
def VisionBasedNavigator.find_direct_path (v : VisionBasedNavigator) (start goal : Pos)
    (obstacles : List Pos) : List Pos :=
  fdpGo v goal obstacles 101 start [start]

/-- Third rung of the adaptive-margin ladder (margin − 20), with the final
direct-walker fallback. -/
def VisionBasedNavigator.find_path_with_adaptive_margin_3 (v : VisionBasedNavigator)
    (start goal : Pos) (obstacles : List Pos) (fuel : ℕ) : Option (List Pos) :=
  match (v.find_pathFull start goal obstacles (v.safety_margin - 20) fuel).1 with
  | .fuelOut => none
  | .found p =>
    if p.isEmpty = false then some p
    else some (v.find_direct_path start goal obstacles)
  | .noPath => some (v.find_direct_path start goal obstacles)

/-- Second rung of the adaptive-margin ladder (margin − 10). -/
def VisionBasedNavigator.find_path_with_adaptive_margin_2 (v : VisionBasedNavigator)
    (start goal : Pos) (obstacles : List Pos) (fuel : ℕ) : Option (List Pos) :=
  match (v.find_pathFull start goal obstacles (v.safety_margin - 10) fuel).1 with
  | .fuelOut => none
  | .found p =>
    if p.isEmpty = false then some p
    else v.find_path_with_adaptive_margin_3 start goal obstacles fuel
  | .noPath => v.find_path_with_adaptive_margin_3 start goal obstacles fuel

/-- Model of `find_path_with_adaptive_margin`: try A* at the configured
margin, then margin−10, then margin−20 (a returned empty path would be falsy
in Python and also falls through), finally fall back to the direct walker.
`none` records only model fuel exhaustion inside an A* attempt. -/
def VisionBasedNavigator.find_path_with_adaptive_margin (v : VisionBasedNavigator)
    (start goal : Pos) (obstacles : List Pos) (fuel : ℕ) : Option (List Pos) :=
  match (v.find_pathFull start goal obstacles v.safety_margin fuel).1 with
  | .fuelOut => none
  | .found p =>
    if p.isEmpty = false then some p
    else v.find_path_with_adaptive_margin_2 start goal obstacles fuel
  | .noPath => v.find_path_with_adaptive_margin_2 start goal obstacles fuel

/-! ## Navigation / replanning loops

The server is an oracle: each kind of request has its own response stream,
consumed in call order.  Python's `for i, step in enumerate(path):` iterates
over the list object captured when the loop starts; the `optimized_path = ...`
(resp. `path = ...`) rebinding and the `i = 0` / `i = -1` assignments inside
the loop body do not affect that iterator, so the loop continues with the next
element of the original list.  The embeddings below reproduce exactly that:
the rebound variable is carried (`pathVar`) but the recursion continues on the
remainder of the original list. -/

/-- Server oracle for one `RobotNavigator.navigate_to_goal` run. -/
structure GridEnv where
  obstaclesOk : Bool
  posResponses : ℕ → PosResp
  moveResults : ℕ → Bool
  collisionResults : ℕ → Bool
  goalResults : ℕ → Bool

/-- Execution loop of `RobotNavigator.navigate_to_goal` (the
`for i, step in enumerate(optimized_path):` loop).  Arguments after the fuel:
remaining items of the original iterator, the rebindable `optimized_path`
variable, and the four response-stream cursors (moves, collision polls, goal
polls, position queries).  Returns the run result (`none` only when an A*
call exhausts the model's fuel) and the trace of issued move commands in
pixel coordinates. -/
def RobotNavigator.execLoop (nav : RobotNavigator) (obstacles : List Pos) (env : GridEnv)
    (fuel : ℕ) : List Pos → List Pos → ℕ → ℕ → ℕ → ℕ → Option Bool × List Pos
  | [], _, _, _, gq, _ => (some (env.goalResults gq), [])
  | step :: rest, pathVar, mq, cq, gq, pq =>
    let px : Pos := (step.1 * nav.grid_size, step.2 * nav.grid_size)
    if env.moveResults mq = false then (some false, [px])
    else if env.collisionResults cq = true then
      let pos := nav.get_robot_position (env.posResponses pq)
      match (nav.find_pathFull obstacles pos nav.goal fuel).1 with
      | .fuelOut => (none, [px])
      | .noPath => (some false, [px])
      | .found p =>
        if p.isEmpty then (some false, [px])
        else
          let newOpt := RobotNavigator.optimize_path obstacles p
          let res := nav.execLoop obstacles env fuel rest newOpt (mq + 1) (cq + 1) gq (pq + 1)
          (res.1, px :: res.2)
    else if env.goalResults gq = true then (some true, [px])
    else
      let res := nav.execLoop obstacles env fuel rest pathVar (mq + 1) (cq + 1) (gq + 1) pq
      (res.1, px :: res.2)

/-- Model of `RobotNavigator.navigate_to_goal`: fetch obstacles, sense the
position, plan, optimize, then execute with collision/goal feedback. -/
def RobotNavigator.navigate_to_goal (nav : RobotNavigator) (env : GridEnv) (fuel : ℕ) :
    Option Bool × List Pos :=
  match nav.get_obstacles env.obstaclesOk with
  | none => (some false, [])
  | some obstacles =>
    let cur := nav.get_robot_position (env.posResponses 0)
    match (nav.find_pathFull obstacles cur nav.goal fuel).1 with
    | .fuelOut => (none, [])
    | .noPath => (some false, [])
    | .found p =>
      if p.isEmpty then (some false, [])
      else
        let opt := RobotNavigator.optimize_path obstacles p
        nav.execLoop obstacles env fuel opt opt 0 0 0 1

/-- Output of `detect_objects` on one captured frame. -/
structure SenseData where
  robot : Option Pos
  goal : Option Pos
  obstacles : List Pos
deriving DecidableEq

/-- Server/vision oracle for one `VisionBasedNavigator.navigate_to_goal` run:
`captures k = none` models a failed canvas capture. -/
structure VisionEnv where
  captures : ℕ → Option SenseData
  moveResults : ℕ → Bool
  collisionResults : ℕ → Bool
  goalResults : ℕ → Bool

/-- Execution loop of `VisionBasedNavigator.navigate_to_goal`.  `i` is the
enumerate index over the original path; collision and goal feedback are polled
only when `i % 5 == 0`, and the cursors advance only when the corresponding
query is actually made (Python `and` short-circuits). -/
def VisionBasedNavigator.execLoop (v : VisionBasedNavigator) (env : VisionEnv) (fuel : ℕ) :
    List Pos → ℕ → List Pos → ℕ → ℕ → ℕ → ℕ → Option Bool × List Pos
  | [], _, _, _, _, gq, _ => (some (env.goalResults gq), [])
  | step :: rest, i, pathVar, mq, cq, gq, capq =>
    if env.moveResults mq = false then (some false, [step])
    else if i % 5 = 0 then
      if env.collisionResults cq = true then
        match env.captures capq with
        | none => (some false, [step])
        | some sense =>
          match sense.robot, sense.goal with
          | some r, some g =>
            match v.find_path_with_adaptive_margin r g sense.obstacles fuel with
            | none => (none, [step])
            | some p =>
              if p.isEmpty then (some false, [step])
              else
                let res := v.execLoop env fuel rest (i + 1) p (mq + 1) (cq + 1) gq (capq + 1)
                (res.1, step :: res.2)
          | _, _ => (some false, [step])
      else if env.goalResults gq = true then (some true, [step])
      else
        let res := v.execLoop env fuel rest (i + 1) pathVar (mq + 1) (cq + 1) (gq + 1) capq
        (res.1, step :: res.2)
    else
      let res := v.execLoop env fuel rest (i + 1) pathVar (mq + 1) cq gq capq
      (res.1, step :: res.2)

/-- Model of `VisionBasedNavigator.navigate_to_goal`: capture and detect, plan
with the adaptive-margin ladder, then execute with periodic feedback. -/
def VisionBasedNavigator.navigate_to_goal (v : VisionBasedNavigator) (env : VisionEnv)
    (fuel : ℕ) : Option Bool × List Pos :=
  match env.captures 0 with
  | none => (some false, [])
  | some sense =>
    match sense.robot with
    | none => (some false, [])
    | some r =>
      match sense.goal with
      | none => (some false, [])
      | some g =>
        match v.find_path_with_adaptive_margin r g sense.obstacles fuel with
        | none => (none, [])
        | some p =>
          if p.isEmpty then (some false, [])
          else v.execLoop env fuel p 0 p 0 0 0 1

/-- Final g-score read, in units of 1/500 (the positions read always have an
entry; see the invariants in the theorem section). -/
def gScoreOf (st : AState) (p : Pos) : ℤ := (alookup st.gScore p).getD 0

/-- Real value of a scaled g-score: the float the Python code computes. -/
noncomputable def gReal (z : ℤ) : ℝ := (z : ℝ) / 500

/-- The maximal predecessor chain from `cur` through a `came_from` map. -/
inductive CFChain (cf : List (Pos × Pos)) : Pos → List Pos → Prop
  | nil (cur : Pos) (h : alookup cf cur = none) : CFChain cf cur []
  | cons (cur prev : Pos) (w : List Pos) (h : alookup cf cur = some prev)
      (hw : CFChain cf prev w) : CFChain cf cur (cur :: w)

/-- Search-state invariant maintained by the A* loop, parameterised by a
property `Q` guaranteed by the neighbor generator: every node with a
predecessor satisfies `Q` and its g-score exceeds its predecessor's by at
least one axis step (500 in scaled units); every heap entry has a g-score;
g-scores are nonnegative and the start keeps g-score 0. -/
structure AInv (Q : Pos → Prop) (start : Pos) (st : AState) : Prop where
  hQ : ∀ n c, alookup st.cameFrom n = some c → Q n
  hg : ∀ n c, alookup st.cameFrom n = some c →
    ∃ gn gc, alookup st.gScore n = some gn ∧ alookup st.gScore c = some gc ∧ gc + 500 ≤ gn
  hopen : ∀ e ∈ st.openSet, (alookup st.gScore e.2).isSome = true
  hnonneg : ∀ n z, alookup st.gScore n = some z → 0 ≤ z
  hstart : alookup st.gScore start = some 0

/-! ## Concrete fixtures

Navigator configurations and server oracles used to evaluate the embedded
programs on concrete runs.  `robotNavigatorDefault` / `visionNavigatorDefault`
carry exactly the constructor literals of the source; the `test…` navigators
override the instance attributes to obtain small, fully evaluable scenarios. -/

/-- The `RobotNavigator()` instance of the source's `__main__` block. -/
def robotNavigatorDefault : RobotNavigator := {}

/-- The `VisionBasedNavigator()` instance of the source's `__main__` block. -/
def visionNavigatorDefault : VisionBasedNavigator := {}

/-- Small grid configuration: a 10×10 grid on which none of the hard-coded
obstacles lands in bounds, start `(0,0)`, goal `(3,0)`. -/
def testNavA : RobotNavigator :=
  { grid_size := 10, grid_width := 10, grid_height := 10, start := (0, 0), goal := (3, 0) }

/-- Small grid configuration whose goal cell `(2,2)` is covered by the
inflation of the hard-coded obstacle at `(150,120)` (cell size 50), so A*
exhausts its open set. -/
def testNavB : RobotNavigator :=
  { grid_size := 50, grid_width := 3, grid_height := 3, start := (0, 0), goal := (2, 2) }

/-- Oracle: obstacles fetch succeeds, every move succeeds, a collision is
reported at the first poll only, the goal is never reported reached. -/
def gridEnvCollisionFirst : GridEnv :=
  { obstaclesOk := true, posResponses := fun _ => .exn, moveResults := fun _ => true,
    collisionResults := fun k => k = 0, goalResults := fun _ => false }

/-- Oracle: the obstacles fetch fails (sensing failure). -/
def gridEnvSenseFail : GridEnv :=
  { obstaclesOk := false, posResponses := fun _ => .exn, moveResults := fun _ => true,
    collisionResults := fun _ => false, goalResults := fun _ => false }

/-- Oracle: everything succeeds but no collision and no goal feedback. -/
def gridEnvQuiet : GridEnv :=
  { obstaclesOk := true, posResponses := fun _ => .exn, moveResults := fun _ => true,
    collisionResults := fun _ => false, goalResults := fun _ => false }

/-- Oracle: the first move command is rejected (command failure). -/
def gridEnvMoveFail : GridEnv :=
  { obstaclesOk := true, posResponses := fun _ => .exn, moveResults := fun _ => false,
    collisionResults := fun _ => false, goalResults := fun _ => false }

/-- First vision capture: robot `(100,100)`, goal `(200,100)`, one obstacle at
the robot's own position (so every A* margin fails and the direct walker
produces the path). -/
def senseDataFirst : SenseData :=
  { robot := some (100, 100), goal := some (200, 100), obstacles := [(100, 100)] }

/-- Re-sensed state after the collision: robot `(300,300)`, goal `(300,380)`,
one obstacle at the robot's position. -/
def senseDataSecond : SenseData :=
  { robot := some (300, 300), goal := some (300, 380), obstacles := [(300, 300)] }

/-- Vision oracle: first capture `senseDataFirst`, later captures
`senseDataSecond`; moves succeed; a collision is reported at the first poll
only; the goal is never reported reached. -/
def visionEnvCollisionFirst : VisionEnv :=
  { captures := fun k => if k = 0 then some senseDataFirst else some senseDataSecond,
    moveResults := fun _ => true, collisionResults := fun k => k = 0,
    goalResults := fun _ => false }

/-- A capture in which neither the robot nor the goal is detected. -/
def senseDataBlind : SenseData := { robot := none, goal := none, obstacles := [] }

/-- Vision oracle: every canvas capture fails (sensing failure). -/
def visionEnvCapFail : VisionEnv :=
  { captures := fun _ => none, moveResults := fun _ => true,
    collisionResults := fun _ => false, goalResults := fun _ => false }

/-- Vision oracle: captures succeed but detect neither robot nor goal. -/
def visionEnvDetectFail : VisionEnv :=
  { captures := fun _ => some senseDataBlind, moveResults := fun _ => true,
    collisionResults := fun _ => false, goalResults := fun _ => false }

/-- Vision oracle: the first move command is rejected (command failure). -/
def visionEnvMoveFail : VisionEnv :=
  { captures := fun _ => some senseDataBlind, moveResults := fun _ => false,
    collisionResults := fun _ => false, goalResults := fun _ => false }

/-- Vision oracle: moves succeed, a collision is always reported, and the
recapture fails. -/
def visionEnvColCapFail : VisionEnv :=
  { captures := fun _ => none, moveResults := fun _ => true,
    collisionResults := fun _ => true, goalResults := fun _ => false }

/-- Vision oracle: moves succeed, a collision is always reported, and the
recapture detects neither robot nor goal. -/
def visionEnvColBlind : VisionEnv :=
  { captures := fun _ => some senseDataBlind, moveResults := fun _ => true,
    collisionResults := fun _ => true, goalResults := fun _ => false }

/-- The superseded first vision path: the direct walk from `(100,100)` toward
`(200,100)` around the obstacle at `(100,100)`. -/
def visionOldPath : List Pos :=
  [(100, 100), (108, 100), (116, 100), (124, 100), (132, 100), (140, 100), (148, 100),
   (156, 100), (164, 100), (172, 100), (180, 100), (188, 100)]

/-- The replacement vision path computed from the re-sensed state. -/
def visionNewPath : List Pos :=
  [(300, 300), (300, 308), (300, 316), (300, 324), (300, 332), (300, 340), (300, 348),
   (300, 356), (300, 364)]

/-! ## Theorems: basic helpers -/

theorem mem_intRange {lo hi k : ℤ} : k ∈ intRange lo hi ↔ lo ≤ k ∧ k < hi := by
  simp only [intRange, List.mem_map, List.mem_range]
  constructor
  · rintro ⟨j, hj, rfl⟩
    omega
  · intro ⟨h1, h2⟩
    exact ⟨(k - lo).toNat, by omega, by omega⟩

theorem natSqrtGo_spec (n : ℕ) : ∀ f k, k * k ≤ n → n < (k + f + 1) * (k + f + 1) →
    natSqrtGo n f k * natSqrtGo n f k ≤ n ∧
      n < (natSqrtGo n f k + 1) * (natSqrtGo n f k + 1) := by
  intro f
  induction f with
  | zero =>
    intro k h1 h2
    have h2' : n < (k + 1) * (k + 1) := by
      have : k + 0 + 1 = k + 1 := by omega
      rwa [this] at h2
    exact ⟨by simpa [natSqrtGo] using h1, by simpa [natSqrtGo] using h2'⟩
  | succ f ih =>
    intro k h1 h2
    rw [natSqrtGo]
    split
    · refine ih (k + 1) (by assumption) ?_
      have : k + 1 + f + 1 = k + (f + 1) + 1 := by omega
      rwa [this]
    · exact ⟨h1, by omega⟩

/-- `natSqrt` agrees with `Nat.sqrt`. -/
theorem natSqrt_eq_sqrt (n : ℕ) : natSqrt n = Nat.sqrt n := by
  have hn : n < (0 + n + 1) * (0 + n + 1) := by
    have h1 : n < n + 1 := by omega
    have h2 : n + 1 ≤ (n + 1) * (n + 1) := Nat.le_mul_of_pos_left _ (by omega)
    have : 0 + n + 1 = n + 1 := by omega
    rw [this]
    omega
  have h := natSqrtGo_spec n n 0 (by omega) hn
  exact Nat.eq_sqrt.mpr ⟨h.1, h.2⟩

theorem scanBack_sound (obstacles : List Pos) (path : List Pos) (i : ℕ) :
    ∀ j j', scanBack obstacles path i j = some j' →
      i + 1 < j' ∧ j' ≤ j ∧
        RobotNavigator.is_line_clear obstacles (path.getD i (0, 0))
          (path.getD j' (0, 0)) = true := by
  intro j
  induction j with
  | zero => intro j' h; cases h
  | succ j ih =>
    intro j' h
    rw [scanBack] at h
    split at h
    · split at h
      · cases h
        refine ⟨by omega, le_refl _, by assumption⟩
      · have := ih j' h
        exact ⟨this.1, by omega, this.2.2⟩
    · cases h

theorem alookup_cons {α : Type} (k : Pos) (v : α) (l : List (Pos × α)) (p : Pos) :
    alookup ((k, v) :: l) p = if p = k then some v else alookup l p := rfl

theorem getLast?_cons_of_ne_nil {α : Type} (x : α) (l : List α) (y : α)
    (h : l.getLast? = some y) : (x :: l).getLast? = some y := by
  cases l with
  | nil => cases h
  | cons a as => rw [List.getLast?_cons_cons]; exact h

theorem distSq_int (a b : Pos) : ((distSq a b : ℕ) : ℤ) = (a.1 - b.1) ^ 2 + (a.2 - b.2) ^ 2 := by
  have hnn : (0 : ℤ) ≤ (a.1 - b.1) * (a.1 - b.1) + (a.2 - b.2) * (a.2 - b.2) := by
    have := mul_self_nonneg (a.1 - b.1)
    have := mul_self_nonneg (a.2 - b.2)
    omega
  rw [distSq, Int.toNat_of_nonneg hnn]
  ring

theorem distSq_cast (a b : Pos) :
    ((distSq a b : ℕ) : ℝ) = ((a.1 - b.1 : ℤ) : ℝ) ^ 2 + ((a.2 - b.2 : ℤ) : ℝ) ^ 2 := by
  have h := distSq_int a b
  have h2 : ((distSq a b : ℕ) : ℝ) = (((a.1 - b.1) ^ 2 + (a.2 - b.2) ^ 2 : ℤ) : ℝ) := by
    exact_mod_cast congrArg (fun z : ℤ => (z : ℝ)) h
  rw [h2]
  push_cast
  ring

/-- The obstacle-inflation loop of `get_obstacles` blocks exactly the
in-bounds cells within Chebyshev distance `max 1 ((s + robot_size) fdiv
(2 * grid_size))` of the obstacle's center cell. -/
theorem mem_inflateCells (nav : RobotNavigator) (ox oy s : ℤ) (p : Pos) :
    p ∈ nav.inflateCells ox oy s ↔
      0 ≤ p.1 ∧ p.1 < nav.grid_width ∧ 0 ≤ p.2 ∧ p.2 < nav.grid_height ∧
        cheb p (Int.fdiv ox nav.grid_size, Int.fdiv oy nav.grid_size) ≤
          max 1 (Int.fdiv (s + nav.robot_size) (2 * nav.grid_size)) := by
  obtain ⟨px, py⟩ := p
  simp only [RobotNavigator.inflateCells, List.mem_flatMap, List.mem_filterMap, mem_intRange,
    cheb, max_le_iff, abs_le]
  constructor
  · rintro ⟨dx, hdx, dy, hdy, h⟩
    split at h
    · next hcond =>
      injection h with h
      injection h with ha hb
      subst ha; subst hb
      exact ⟨hcond.1, hcond.2.1, hcond.2.2.1, hcond.2.2.2, ⟨by omega, by omega⟩, by omega,
        by omega⟩
    · cases h
  · rintro ⟨h1, h2, h3, h4, ⟨h5, h6⟩, h7, h8⟩
    refine ⟨px - Int.fdiv ox nav.grid_size, by omega,
            py - Int.fdiv oy nav.grid_size, by omega, ?_⟩
    have e1 : Int.fdiv ox nav.grid_size + (px - Int.fdiv ox nav.grid_size) = px := by omega
    have e2 : Int.fdiv oy nav.grid_size + (py - Int.fdiv oy nav.grid_size) = py := by omega
    simp only [e1, e2]
    rw [if_pos ⟨h1, h2, h3, h4⟩]

/-! ## Theorems: the direct walker -/

theorem fdpGo_length_le (v : VisionBasedNavigator) (goal : Pos) (obstacles : List Pos) :
    ∀ f current path, path.length ≤ 100 →
      (fdpGo v goal obstacles f current path).length ≤ 101 := by
  intro f
  induction f with
  | zero => intro current path h; simp only [fdpGo]; omega
  | succ f ih =>
    intro current path h
    simp only [fdpGo]
    split
    · omega
    · split
      · omega
      · split
        · next hlen =>
          simp only [List.length_append, List.length_cons, List.length_nil] at hlen ⊢
          omega
        · next hlen =>
          exact ih _ _ (by
            simp only [List.length_append, List.length_cons, List.length_nil] at hlen ⊢
            omega)

theorem fdpGo_head (v : VisionBasedNavigator) (goal : Pos) (obstacles : List Pos) :
    ∀ f current a path,
      (fdpGo v goal obstacles f current (a :: path)).head? = some a := by
  intro f
  induction f with
  | zero => intro current a path; simp [fdpGo]
  | succ f ih =>
    intro current a path
    simp only [fdpGo]
    split
    · rfl
    · split
      · rfl
      · split
        · simp
        · exact ih _ _ _

/-! ## Theorems: A* search invariants -/

theorem relax_preserves (P : AStarParams) (Q : Pos → Prop) (start : Pos)
    (Hcost : ∀ c n, n ∈ P.neighbors c → 500 ≤ P.cost c n)
    (HQ : ∀ c n, n ∈ P.neighbors c → Q n)
    (current n : Pos) (st : AState)
    (hn : n ∈ P.neighbors current)
    (hcur : (alookup st.gScore current).isSome = true)
    (hInv : AInv Q start st) :
    AInv Q start (relaxNeighbor P current st n) ∧
      alookup (relaxNeighbor P current st n).gScore current = alookup st.gScore current := by
  obtain ⟨gc, hgc⟩ := Option.isSome_iff_exists.mp hcur
  have hgc0 : 0 ≤ gc := hInv.hnonneg current gc hgc
  have hcost := Hcost current n hn
  by_cases hupd :
      (match alookup st.gScore n with
        | none => true
        | some gn => decide (gc + P.cost current n < gn)) = true
  · -- the update fires
    have hne_cur : n ≠ current := by
      intro he
      subst he
      rw [hgc] at hupd
      simp only [decide_eq_true_eq] at hupd
      omega
    have hne_start : n ≠ start := by
      intro he
      subst he
      rw [hInv.hstart] at hupd
      simp only [decide_eq_true_eq] at hupd
      omega
    have hrel : relaxNeighbor P current st n =
        { openSet := (⟨gc + P.cost current n, P.hsq n⟩, n) :: st.openSet,
          cameFrom := (n, current) :: st.cameFrom,
          gScore := (n, gc + P.cost current n) :: st.gScore } := by
      simp only [relaxNeighbor, hgc, Option.getD_some]
      rw [if_pos hupd]
    rw [hrel]
    have hlkup : ∀ p, alookup ((n, gc + P.cost current n) :: st.gScore) p =
        if p = n then some (gc + P.cost current n) else alookup st.gScore p := fun p => rfl
    have hbound : ∀ gn, alookup st.gScore n = some gn → gc + P.cost current n < gn := by
      intro gn hgn
      rw [hgn] at hupd
      simpa using hupd
    refine ⟨⟨?_, ?_, ?_, ?_, ?_⟩, ?_⟩
    · -- hQ
      intro m c hm
      rw [alookup_cons] at hm
      split at hm
      · next he => rw [he]; exact HQ current n hn
      · exact hInv.hQ m c hm
    · -- hg
      intro m c hm
      rw [alookup_cons] at hm
      rw [hlkup, hlkup]
      by_cases hmn : m = n
      · rw [if_pos hmn] at hm
        injection hm with hc
        subst hc
        rw [if_pos hmn, if_neg (show ¬ current = n from fun h => hne_cur h.symm)]
        exact ⟨_, gc, rfl, hgc, by omega⟩
      · rw [if_neg hmn] at hm
        obtain ⟨gm, gcm, hgm, hgcm, hrel'⟩ := hInv.hg m c hm
        rw [if_neg hmn]
        by_cases hcn : c = n
        · have := hbound gcm (hcn ▸ hgcm)
          rw [if_pos hcn]
          exact ⟨gm, _, hgm, rfl, by omega⟩
        · rw [if_neg hcn]
          exact ⟨gm, gcm, hgm, hgcm, hrel'⟩
    · -- hopen
      intro e he
      rw [hlkup]
      rcases List.mem_cons.mp he with he1 | he2
      · subst he1; simp
      · split
        · simp
        · exact hInv.hopen e he2
    · -- hnonneg
      intro m z hm
      rw [hlkup] at hm
      split at hm
      · cases hm; omega
      · exact hInv.hnonneg m z hm
    · -- hstart
      rw [hlkup, if_neg (Ne.symm hne_start)]
      exact hInv.hstart
    · -- current's g-score unchanged
      rw [hlkup, if_neg (Ne.symm hne_cur)]
  · -- no update
    have hrel : relaxNeighbor P current st n = st := by
      simp only [relaxNeighbor, hgc, Option.getD_some]
      rw [if_neg hupd]
    rw [hrel]
    exact ⟨hInv, rfl⟩

theorem foldl_relax_preserves (P : AStarParams) (Q : Pos → Prop) (start : Pos)
    (Hcost : ∀ c n, n ∈ P.neighbors c → 500 ≤ P.cost c n)
    (HQ : ∀ c n, n ∈ P.neighbors c → Q n) (current : Pos) :
    ∀ (L : List Pos) (st : AState), (∀ x ∈ L, x ∈ P.neighbors current) →
      (alookup st.gScore current).isSome = true → AInv Q start st →
      AInv Q start (L.foldl (relaxNeighbor P current) st) := by
  intro L
  induction L with
  | nil => intro st _ _ hInv; exact hInv
  | cons x xs ih =>
    intro st hL hcur hInv
    have hx := hL x (List.mem_cons_self x xs)
    have h := relax_preserves P Q start Hcost HQ current x st hx hcur hInv
    exact ih (relaxNeighbor P current st x) (fun y hy => hL y (List.mem_cons_of_mem x hy))
      (by rw [h.2]; exact hcur) h.1

theorem expand_preserves (P : AStarParams) (Q : Pos → Prop) (start : Pos)
    (Hcost : ∀ c n, n ∈ P.neighbors c → 500 ≤ P.cost c n)
    (HQ : ∀ c n, n ∈ P.neighbors c → Q n) (current : Pos) (st : AState)
    (hcur : (alookup st.gScore current).isSome = true) (hInv : AInv Q start st) :
    AInv Q start (expand P current st) :=
  foldl_relax_preserves P Q start Hcost HQ current (P.neighbors current) st
    (fun _ hx => hx) hcur hInv

theorem minEntry_mem : ∀ (es : List (FKey × Pos)) (m : FKey × Pos), minEntry m es ∈ m :: es := by
  intro es
  induction es with
  | nil => intro m; simp [minEntry]
  | cons x xs ih =>
    intro m
    rw [minEntry]
    rcases List.mem_cons.mp (ih (if entryLt x m then x else m)) with h | h
    · rw [h]
      split
      · exact List.mem_cons_of_mem _ (List.mem_cons_self _ _)
      · exact List.mem_cons_self _ _
    · exact List.mem_cons_of_mem _ (List.mem_cons_of_mem _ h)

theorem popMin_sound (l : List (FKey × Pos)) (e : FKey × Pos) (rest : List (FKey × Pos)) :
    popMin l = some (e, rest) → e ∈ l ∧ ∀ x ∈ rest, x ∈ l := by
  cases l with
  | nil => intro h; cases h
  | cons a as =>
    intro h
    simp only [popMin] at h
    injection h with h
    injection h with h1 h2
    subst h1
    subst h2
    exact ⟨minEntry_mem as a, fun x hx => List.erase_subset _ _ hx⟩

theorem chainToRoot_chain (cf : List (Pos × Pos)) :
    ∀ f cur acc v, chainToRoot cf f cur acc = some v →
      ∃ w, v = acc ++ w ∧ CFChain cf cur w := by
  intro f
  induction f with
  | zero =>
    intro cur acc v h
    rw [chainToRoot] at h
    cases hl : alookup cf cur with
    | none =>
      rw [hl] at h
      injection h with h
      exact ⟨[], by simp [h.symm], CFChain.nil cur hl⟩
    | some prev => rw [hl] at h; cases h
  | succ f ih =>
    intro cur acc v h
    rw [chainToRoot] at h
    cases hl : alookup cf cur with
    | none =>
      rw [hl] at h
      injection h with h
      exact ⟨[], by simp [h.symm], CFChain.nil cur hl⟩
    | some prev =>
      rw [hl] at h
      obtain ⟨w, hw1, hw2⟩ := ih prev (acc ++ [cur]) v h
      exact ⟨cur :: w, by simp [hw1], CFChain.cons cur prev w hl hw2⟩

theorem cfchain_mem_keys (cf : List (Pos × Pos)) (cur : Pos) (w : List Pos)
    (hc : CFChain cf cur w) : ∀ q ∈ w, ∃ c, alookup cf q = some c := by
  induction hc with
  | nil => intro q hq; cases hq
  | cons cur prev w h hw ih =>
    intro q hq
    rcases List.mem_cons.mp hq with h1 | h2
    · exact ⟨prev, h1 ▸ h⟩
    · exact ih q h2

theorem cfchain_gchain (Q : Pos → Prop) (start : Pos) (st : AState)
    (hInv : AInv Q start st) :
    ∀ (cur : Pos) (w : List Pos), CFChain st.cameFrom cur w →
      List.Chain' (fun a b => gScoreOf st b ≤ gScoreOf st a) (w ++ [start]) := by
  intro cur w hc
  induction hc with
  | nil => simp
  | cons cur prev w h hw ih =>
    have hcur := hInv.hg cur prev h
    obtain ⟨gn, gc, hgn, hgc, hrel⟩ := hcur
    cases hw with
    | nil hprev =>
      simp only [List.cons_append, List.nil_append]
      refine List.Chain'.cons ?_ (by simpa using ih)
      simp only [gScoreOf, hgn, hInv.hstart, Option.getD_some]
      have := hInv.hnonneg prev gc hgc
      omega
    | cons prev pp w' h' hw' =>
      simp only [List.cons_append]
      refine List.Chain'.cons ?_ (by simpa using ih)
      simp only [gScoreOf, hgn, hgc, Option.getD_some]
      omega

theorem reconstructPath_spec (cf : List (Pos × Pos)) (start cur : Pos) (p : List Pos)
    (h : reconstructPath cf start cur = some p) :
    ∃ w, p = (w ++ [start]).reverse ∧ CFChain cf cur w := by
  simp only [reconstructPath, Option.map_eq_some'] at h
  obtain ⟨v, hv, hp⟩ := h
  obtain ⟨w, hw1, hw2⟩ := chainToRoot_chain cf (cf.length + 1) cur [] v hv
  simp only [List.nil_append] at hw1
  exact ⟨w, by rw [← hp, hw1], hw2⟩

/-- Core A* correctness lemma: when the fuelled loop returns a reconstructed
path, the path starts at `start`, every later position came out of the
neighbor generator (so satisfies `Q`), and the final g-scores along the path
are monotone. -/
theorem astarGo_found_spec (P : AStarParams) (start : Pos) (Q : Pos → Prop)
    (Hcost : ∀ c n, n ∈ P.neighbors c → 500 ≤ P.cost c n)
    (HQ : ∀ c n, n ∈ P.neighbors c → Q n) :
    ∀ fuel st p st', AInv Q start st →
      astarGo P start fuel st = (.found p, st') →
      p.head? = some start ∧ (∀ q ∈ p.tail, Q q) ∧
        List.Chain' (fun a b => gScoreOf st' a ≤ gScoreOf st' b) p := by
  intro fuel
  induction fuel with
  | zero =>
    intro st p st' hInv h
    rw [astarGo] at h
    cases h
  | succ fuel ih =>
    intro st p st' hInv h
    rw [astarGo] at h
    cases hpop : popMin st.openSet with
    | none => rw [hpop] at h; cases h
    | some er =>
      obtain ⟨e, rest⟩ := er
      rw [hpop] at h
      simp only at h
      have hmem := popMin_sound st.openSet e rest hpop
      have hInv1 : AInv Q start { st with openSet := rest } :=
        ⟨hInv.hQ, hInv.hg, fun e' he' => hInv.hopen e' (hmem.2 e' he'), hInv.hnonneg,
          hInv.hstart⟩
      by_cases hgoal : P.isGoal e.2 = true
      · rw [if_pos hgoal] at h
        cases hrec : reconstructPath st.cameFrom start e.2 with
        | none => rw [hrec] at h; cases h
        | some p' =>
          rw [hrec] at h
          injection h with h1 h2
          injection h1 with h1
          rw [h1] at hrec
          subst h2
          obtain ⟨w, hp, hchain⟩ := reconstructPath_spec st.cameFrom start e.2 p hrec
          have hkeys := cfchain_mem_keys st.cameFrom e.2 w hchain
          have hgch := cfchain_gchain Q start st hInv e.2 w hchain
          subst hp
          refine ⟨?_, ?_, ?_⟩
          · rw [List.head?_reverse, List.getLast?_concat]
          · intro q hq
            rw [List.reverse_append, List.reverse_singleton, List.singleton_append,
              List.tail_cons] at hq
            obtain ⟨c, hc⟩ := hkeys q (List.mem_reverse.mp hq)
            exact hInv.hQ q c hc
          · rw [List.chain'_reverse]
            exact hgch
      · rw [if_neg hgoal] at h
        exact ih (expand P e.2 { st with openSet := rest }) p st'
          (expand_preserves P Q start Hcost HQ e.2 _
            (hInv.hopen e hmem.1) hInv1) h

theorem astarRun_init_inv (Q : Pos → Prop) (start : Pos) :
    AInv Q start ⟨[(⟨0, 0⟩, start)], [], [(start, 0)]⟩ := by
  refine ⟨?_, ?_, ?_, ?_, ?_⟩
  · intro n c h; cases h
  · intro n c h; cases h
  · intro e he
    rcases List.mem_singleton.mp he with rfl
    simp [alookup]
  · intro n z h
    rw [alookup_cons] at h
    split at h
    · cases h; omega
    · cases h
  · simp [alookup]

theorem grid_neighbors_sound (nav : RobotNavigator) (obstacles : List Pos) (c n : Pos)
    (h : n ∈ nav.get_neighbors obstacles c) :
    0 ≤ n.1 ∧ n.1 < nav.grid_width ∧ 0 ≤ n.2 ∧ n.2 < nav.grid_height ∧ n ∉ obstacles := by
  simp only [RobotNavigator.get_neighbors, List.mem_filterMap] at h
  obtain ⟨d, _, hd⟩ := h
  split at hd
  · next hcond => cases hd; exact hcond
  · cases hd

theorem gridMoveCost_ge (c n : Pos) : 500 ≤ gridMoveCost c n := by
  rw [gridMoveCost]
  split <;> omega

/-! ## Theorems: the optimizer loop -/

theorem optGo_spec (obstacles : List Pos) (path : List Pos) :
    ∀ f i acc, i < path.length → path.length - 1 - i ≤ f →
      ∃ rest, optGo obstacles path f i acc = acc ++ rest ∧
        rest.Sublist (path.drop (i + 1)) ∧
        rest.length ≤ path.length - 1 - i ∧
        (i < path.length - 1 → rest.getLast? = some (path.getD (path.length - 1) (0, 0))) ∧
        ((∀ k, k + 1 < path.length →
            RobotNavigator.is_line_clear obstacles (path.getD k (0, 0))
              (path.getD (k + 1) (0, 0)) = true) →
          List.Chain' (fun a b => RobotNavigator.is_line_clear obstacles a b = true)
            (path.getD i (0, 0) :: rest)) := by
  intro f
  induction f with
  | zero =>
    intro i acc hi hfuel
    refine ⟨[], by simp [optGo], List.nil_sublist _, by simp, fun h => absurd h (by omega),
      fun _ => List.chain'_singleton _⟩
  | succ f ih =>
    intro i acc hi hfuel
    by_cases hlt : i < path.length - 1
    · cases hscan : scanBack obstacles path i (path.length - 1) with
      | some j =>
        obtain ⟨hij, hjle, hclear⟩ := scanBack_sound obstacles path i (path.length - 1) j hscan
        have hj : j < path.length := by omega
        obtain ⟨rest', he, hsub, hlen', hlast, hchain⟩ :=
          ih j (acc ++ [path.getD j (0, 0)]) hj (by omega)
        refine ⟨path.getD j (0, 0) :: rest', ?_, ?_, ?_, ?_, ?_⟩
        · rw [optGo, if_pos hlt, hscan]
          show optGo obstacles path f j (acc ++ [path.getD j (0, 0)]) = _
          rw [he]
          simp
        · have hdj : path.getD j (0, 0) :: rest' |>.Sublist (path.drop j) := by
            rw [List.drop_eq_getElem_cons hj, ← List.getD_eq_getElem path (0, 0) hj]
            exact hsub.cons₂ _
          have hdrop : (path.drop j).Sublist (path.drop (i + 1)) := by
            have : path.drop j = (path.drop (i + 1)).drop (j - (i + 1)) := by
              rw [List.drop_drop]
              congr 1
              omega
            rw [this]
            exact List.drop_sublist _ _
          exact hdj.trans hdrop
        · simp only [List.length_cons]
          omega
        · intro _
          by_cases hjlt : j < path.length - 1
          · exact getLast?_cons_of_ne_nil _ _ _ (hlast hjlt)
          · have hje : j = path.length - 1 := by omega
            have : rest' = [] := List.length_eq_zero.mp (by omega)
            subst this
            simp [hje]
        · intro hadj
          rw [List.chain'_cons]
          exact ⟨hclear, hchain hadj⟩
      | none =>
        have hi1 : i + 1 < path.length := by omega
        obtain ⟨rest', he, hsub, hlen', hlast, hchain⟩ :=
          ih (i + 1) (acc ++ [path.getD (i + 1) (0, 0)]) hi1 (by omega)
        refine ⟨path.getD (i + 1) (0, 0) :: rest', ?_, ?_, ?_, ?_, ?_⟩
        · rw [optGo, if_pos hlt, hscan]
          show optGo obstacles path f (i + 1) (acc ++ [path.getD (i + 1) (0, 0)]) = _
          rw [he]
          simp
        · rw [List.drop_eq_getElem_cons hi1, ← List.getD_eq_getElem path (0, 0) hi1]
          exact hsub.cons₂ _
        · simp only [List.length_cons]
          omega
        · intro _
          by_cases hjlt : i + 1 < path.length - 1
          · exact getLast?_cons_of_ne_nil _ _ _ (hlast hjlt)
          · have hje : i + 1 = path.length - 1 := by omega
            have : rest' = [] := List.length_eq_zero.mp (by omega)
            subst this
            simp [hje]
        · intro hadj
          rw [List.chain'_cons]
          exact ⟨hadj i hi1, hchain hadj⟩
    · refine ⟨[], by rw [optGo, if_neg hlt]; simp, List.nil_sublist _, by simp,
        fun h => absurd h hlt, fun _ => List.chain'_singleton _⟩

/-! ## Theorems: position-response independence -/

theorem get_robot_position_const (nav : RobotNavigator) (r : PosResp) :
    nav.get_robot_position r = nav.start := by
  cases r <;> rfl

theorem execLoop_pos_independent (nav : RobotNavigator) (obstacles : List Pos) (env : GridEnv)
    (fuel : ℕ) (f1 f2 : ℕ → PosResp) :
    ∀ items pathVar mq cq gq pq,
      nav.execLoop obstacles { env with posResponses := f1 } fuel items pathVar mq cq gq pq =
        nav.execLoop obstacles { env with posResponses := f2 } fuel items pathVar mq cq gq pq := by
  intro items
  induction items with
  | nil => intro pathVar mq cq gq pq; rfl
  | cons step rest ih =>
    intro pathVar mq cq gq pq
    simp only [RobotNavigator.execLoop, get_robot_position_const, ih]

theorem navigate_pos_independent (nav : RobotNavigator) (env : GridEnv) (fuel : ℕ)
    (f1 f2 : ℕ → PosResp) :
    nav.navigate_to_goal { env with posResponses := f1 } fuel =
      nav.navigate_to_goal { env with posResponses := f2 } fuel := by
  simp only [RobotNavigator.navigate_to_goal, get_robot_position_const]
  cases hobs : nav.get_obstacles env.obstaclesOk with
  | none => simp only [hobs]
  | some obstacles =>
    simp only [hobs]
    cases hfp : (nav.find_pathFull obstacles nav.start nav.goal fuel).1 with
    | fuelOut => simp only [hfp]
    | noPath => simp only [hfp]
    | found p =>
      simp only [hfp]
      by_cases hp : p.isEmpty = true
      · rw [if_pos hp, if_pos hp]
      · rw [if_neg hp, if_neg hp]
        exact execLoop_pos_independent nav obstacles env fuel f1 f2 _ _ _ _ _ _

/-! ## Fidelity of the exact integer decision procedures

These lemmas connect the integer-scaled decision procedures used by the
embedding to the real-valued comparisons the Python floats perform:
`distLt`/`distGtB` decide `sqrt d < m` / `m < sqrt d` exactly, `fkeyLe`
decides `FKey.val` order exactly, and `popMin` removes a minimum of the
heap under the induced `(f, position)` tuple order. -/

theorem sqrt_le_sqrt_add_iff (A B d : ℝ) (hA : 0 ≤ A) (hB : 0 ≤ B) :
    (Real.sqrt A ≤ Real.sqrt B + d) ↔
      (if 0 ≤ d then
        (if A - B - d * d ≤ 0 then True
         else (A - B - d * d) * (A - B - d * d) ≤ 4 * (d * d) * B)
      else
        (if B - A - d * d < 0 then False
         else 4 * (d * d) * A ≤ (B - A - d * d) * (B - A - d * d))) := by
  have hsA := Real.sqrt_nonneg A
  have hsB := Real.sqrt_nonneg B
  have hsA2 := Real.sq_sqrt hA
  have hsB2 := Real.sq_sqrt hB
  by_cases hd : 0 ≤ d
  · rw [if_pos hd]
    by_cases hc : A - B - d * d ≤ 0
    · rw [if_pos hc]
      simp only [iff_true]
      have h1 : A ≤ (Real.sqrt B + d) ^ 2 := by nlinarith [mul_nonneg hd hsB]
      calc Real.sqrt A ≤ Real.sqrt ((Real.sqrt B + d) ^ 2) := Real.sqrt_le_sqrt h1
        _ = Real.sqrt B + d := Real.sqrt_sq (by linarith)
    · rw [if_neg hc]
      push_neg at hc
      have h0' : (0 : ℝ) ≤ 2 * d * Real.sqrt B :=
        mul_nonneg (by linarith) hsB
      constructor
      · intro hle
        have h1 : A ≤ (Real.sqrt B + d) ^ 2 := by
          have h2 := mul_self_le_mul_self hsA hle
          nlinarith
        have hcle : A - B - d * d ≤ 2 * d * Real.sqrt B := by nlinarith
        have := mul_self_le_mul_self (le_of_lt hc) hcle
        nlinarith
      · intro hsq
        have hcle : A - B - d * d ≤ 2 * d * Real.sqrt B := by
          by_contra hgt
          push_neg at hgt
          have := mul_self_le_mul_self h0' (le_of_lt hgt)
          nlinarith
        have h1 : A ≤ (Real.sqrt B + d) ^ 2 := by nlinarith
        calc Real.sqrt A ≤ Real.sqrt ((Real.sqrt B + d) ^ 2) := Real.sqrt_le_sqrt h1
          _ = Real.sqrt B + d := Real.sqrt_sq (by linarith)
  · rw [if_neg hd]
    push_neg at hd
    have h0 : 0 ≤ Real.sqrt A - d := by nlinarith
    have h0' : (0 : ℝ) ≤ 2 * -d * Real.sqrt A :=
      mul_nonneg (by linarith) hsA
    by_cases hc : B - A - d * d < 0
    · rw [if_pos hc]
      simp only [iff_false, not_le]
      by_contra hle
      push_neg at hle
      have h1 : Real.sqrt A - d ≤ Real.sqrt B := by linarith
      have h2 : (Real.sqrt A - d) ^ 2 ≤ B := (Real.le_sqrt h0 hB).mp h1
      nlinarith
    · rw [if_neg hc]
      push_neg at hc
      constructor
      · intro hle
        have h1 : Real.sqrt A - d ≤ Real.sqrt B := by linarith
        have h2 : (Real.sqrt A - d) ^ 2 ≤ B := (Real.le_sqrt h0 hB).mp h1
        have hcle : 2 * -d * Real.sqrt A ≤ B - A - d * d := by nlinarith
        have := mul_self_le_mul_self h0' hcle
        nlinarith
      · intro hsq
        have hcle : 2 * -d * Real.sqrt A ≤ B - A - d * d := by
          by_contra hgt
          push_neg at hgt
          have := mul_self_le_mul_self hc (le_of_lt hgt)
          nlinarith
        have h2 : (Real.sqrt A - d) ^ 2 ≤ B := by nlinarith
        have h3 : Real.sqrt A - d ≤ Real.sqrt B := (Real.le_sqrt h0 hB).mpr h2
        linarith

theorem sqrt_scale_500 (x : ℕ) :
    Real.sqrt ((250000 * (x : ℤ) : ℤ) : ℝ) = 500 * Real.sqrt (x : ℝ) := by
  have h : ((250000 * (x : ℤ) : ℤ) : ℝ) = (500 : ℝ) ^ 2 * (x : ℝ) := by push_cast; ring
  rw [h, Real.sqrt_mul (by positivity), Real.sqrt_sq (by norm_num)]

theorem fkeyLe_val (a b : FKey) : fkeyLe a b = true ↔ a.val ≤ b.val := by
  have key : (a.val ≤ b.val) ↔
      Real.sqrt ((250000 * (a.h : ℤ) : ℤ) : ℝ) ≤
        Real.sqrt ((250000 * (b.h : ℤ) : ℤ) : ℝ) + ((b.g - a.g : ℤ) : ℝ) := by
    rw [sqrt_scale_500, sqrt_scale_500, FKey.val, FKey.val]
    push_cast
    constructor <;> intro h <;> linarith
  rw [key, sqrt_le_sqrt_add_iff _ _ _ (by positivity) (by positivity)]
  simp only [fkeyLe]
  by_cases hd : (0 : ℤ) ≤ b.g - a.g
  · rw [if_pos hd, if_pos (show (0 : ℝ) ≤ ((b.g - a.g : ℤ) : ℝ) from by exact_mod_cast hd)]
    by_cases hc : 250000 * (a.h : ℤ) - 250000 * (b.h : ℤ) - (b.g - a.g) * (b.g - a.g) ≤ 0
    · rw [if_pos hc, if_pos (show ((250000 * (a.h : ℤ) : ℤ) : ℝ) -
          ((250000 * (b.h : ℤ) : ℤ) : ℝ) -
          ((b.g - a.g : ℤ) : ℝ) * ((b.g - a.g : ℤ) : ℝ) ≤ 0 from by exact_mod_cast hc)]
      simp
    · rw [if_neg hc, if_neg (show ¬(((250000 * (a.h : ℤ) : ℤ) : ℝ) -
          ((250000 * (b.h : ℤ) : ℤ) : ℝ) -
          ((b.g - a.g : ℤ) : ℝ) * ((b.g - a.g : ℤ) : ℝ) ≤ 0) from by exact_mod_cast hc)]
      rw [decide_eq_true_eq]
      exact ⟨fun h => by exact_mod_cast h, fun h => by exact_mod_cast h⟩
  · rw [if_neg hd, if_neg (show ¬((0 : ℝ) ≤ ((b.g - a.g : ℤ) : ℝ)) from by exact_mod_cast hd)]
    by_cases hc : 250000 * (b.h : ℤ) - 250000 * (a.h : ℤ) - (b.g - a.g) * (b.g - a.g) < 0
    · rw [if_pos hc, if_pos (show ((250000 * (b.h : ℤ) : ℤ) : ℝ) -
          ((250000 * (a.h : ℤ) : ℤ) : ℝ) -
          ((b.g - a.g : ℤ) : ℝ) * ((b.g - a.g : ℤ) : ℝ) < 0 from by exact_mod_cast hc)]
      simp
    · rw [if_neg hc, if_neg (show ¬(((250000 * (b.h : ℤ) : ℤ) : ℝ) -
          ((250000 * (a.h : ℤ) : ℤ) : ℝ) -
          ((b.g - a.g : ℤ) : ℝ) * ((b.g - a.g : ℤ) : ℝ) < 0) from by exact_mod_cast hc)]
      rw [decide_eq_true_eq]
      exact ⟨fun h => by exact_mod_cast h, fun h => by exact_mod_cast h⟩

theorem posLtB_irrefl (p : Pos) : posLtB p p = false := by
  simp [posLtB]

theorem posLtB_asymm {p q : Pos} (h1 : posLtB p q = true) (h2 : posLtB q p = true) : False := by
  simp only [posLtB, Bool.or_eq_true, Bool.and_eq_true, decide_eq_true_eq] at h1 h2
  omega

theorem posLtB_not_trans {p q r : Pos} (h1 : ¬ posLtB p q = true) (h2 : ¬ posLtB q r = true) :
    ¬ posLtB p r = true := by
  simp only [posLtB, Bool.or_eq_true, Bool.and_eq_true, decide_eq_true_eq] at h1 h2 ⊢
  omega

/-- Semantics of the heap-entry order: Python compares `(f, position)` tuples,
so an entry is strictly smaller exactly when its f float is smaller, or the
f floats tie exactly and its position is lexicographically smaller. -/
theorem entryLt_iff (x y : FKey × Pos) :
    entryLt x y = true ↔
      (x.1.val < y.1.val ∨ (x.1.val = y.1.val ∧ posLtB x.2 y.2 = true)) := by
  simp only [entryLt, Bool.or_eq_true, Bool.and_eq_true, Bool.not_eq_true']
  constructor
  · rintro (⟨h1, h2⟩ | ⟨⟨h1, h2⟩, h3⟩)
    · left
      have h1' := (fkeyLe_val _ _).mp h1
      have h2' : ¬ (y.1.val ≤ x.1.val) := fun hy => by
        rw [← fkeyLe_val] at hy
        rw [hy] at h2
        cases h2
      exact lt_of_le_not_le h1' h2'
    · exact Or.inr ⟨le_antisymm ((fkeyLe_val _ _).mp h1) ((fkeyLe_val _ _).mp h2), h3⟩
  · rintro (h | ⟨h, hp⟩)
    · left
      refine ⟨(fkeyLe_val _ _).mpr (le_of_lt h), ?_⟩
      cases hfk : fkeyLe y.1 x.1
      · rfl
      · exact absurd ((fkeyLe_val _ _).mp hfk) (not_le_of_lt h)
    · exact Or.inr ⟨⟨(fkeyLe_val _ _).mpr (le_of_eq h), (fkeyLe_val _ _).mpr (le_of_eq h.symm)⟩,
        hp⟩

theorem entryLt_irrefl (x : FKey × Pos) : ¬ entryLt x x = true := by
  rw [entryLt_iff]
  rintro (h | ⟨_, h2⟩)
  · exact lt_irrefl _ h
  · rw [posLtB_irrefl] at h2; cases h2

theorem entryLt_asymm {x y : FKey × Pos} (h : entryLt x y = true) : ¬ entryLt y x = true := by
  rw [entryLt_iff] at h ⊢
  rintro (h' | ⟨h1', h2'⟩)
  · rcases h with h | ⟨h1, _⟩
    · exact absurd h' (not_lt_of_lt h)
    · exact absurd h' (h1 ▸ lt_irrefl _)
  · rcases h with h | ⟨h1, h2⟩
    · exact absurd h (h1' ▸ lt_irrefl _)
    · exact posLtB_asymm h2 h2'

theorem entryLt_not_trans {x y z : FKey × Pos} (h1 : ¬ entryLt x y = true)
    (h2 : ¬ entryLt y z = true) : ¬ entryLt x z = true := by
  rw [entryLt_iff] at h1 h2 ⊢
  push_neg at h1 h2
  have hyx : y.1.val ≤ x.1.val := h1.1
  have hzy : z.1.val ≤ y.1.val := h2.1
  rintro (h | ⟨heq, hpos⟩)
  · exact absurd h (not_lt_of_le (le_trans hzy hyx))
  · have hxy : x.1.val = y.1.val := by linarith
    have hyz : y.1.val = z.1.val := by linarith
    exact posLtB_not_trans (h1.2 hxy) (h2.2 hyz) hpos

/-- Every element of `m :: es` fails to be strictly below `minEntry m es`. -/
theorem minEntry_not_lt : ∀ (es : List (FKey × Pos)) (m x : FKey × Pos),
    x ∈ m :: es → ¬ entryLt x (minEntry m es) = true := by
  intro es
  induction es with
  | nil =>
    intro m x hx
    rcases List.mem_singleton.mp hx with rfl
    exact entryLt_irrefl x
  | cons e es ih =>
    intro m x hx
    rw [minEntry]
    rcases List.mem_cons.mp hx with rfl | hx'
    · by_cases he : entryLt e x = true
      · rw [if_pos he]
        exact entryLt_not_trans (entryLt_asymm he) (ih e e (List.mem_cons_self e es))
      · rw [if_neg he]
        exact ih x x (List.mem_cons_self x es)
    · rcases List.mem_cons.mp hx' with rfl | hx''
      · by_cases he : entryLt x m = true
        · rw [if_pos he]
          exact ih x x (List.mem_cons_self x es)
        · rw [if_neg he]
          exact entryLt_not_trans he (ih m m (List.mem_cons_self m es))
      · exact ih _ x (List.mem_cons_of_mem _ hx'')

/-- The entry removed by `popMin` is minimal: no entry of the heap is
strictly below it in the `(f, position)` tuple order. -/
theorem popMin_min {l : List (FKey × Pos)} {e : FKey × Pos} {rest : List (FKey × Pos)}
    (h : popMin l = some (e, rest)) : ∀ x ∈ l, ¬ entryLt x e = true := by
  cases l with
  | nil => cases h
  | cons a as =>
    simp only [popMin, Option.some.injEq, Prod.mk.injEq] at h
    intro x hx
    rw [← h.1]
    exact minEntry_not_lt as a x hx

/-- Consequently the popped entry carries a minimal f-value over the heap. -/
theorem popMin_min_val {l : List (FKey × Pos)} {e : FKey × Pos} {rest : List (FKey × Pos)}
    (h : popMin l = some (e, rest)) : ∀ x ∈ l, e.1.val ≤ x.1.val := by
  intro x hx
  by_contra hlt
  push_neg at hlt
  exact popMin_min h x hx ((entryLt_iff x e).mpr (Or.inl hlt))

/-- The integer test `distLt` decides exactly the real comparison
`sqrt d < m` that the Python code performs on floats. -/
theorem distLt_iff (d : ℕ) (m : ℤ) : distLt d m = true ↔ Real.sqrt (d : ℝ) < (m : ℝ) := by
  simp only [distLt, Bool.and_eq_true, decide_eq_true_eq]
  constructor
  · rintro ⟨hm, hd⟩
    have hm' : (0 : ℝ) < (m : ℝ) := by exact_mod_cast hm
    rw [Real.sqrt_lt' hm']
    have : ((d : ℤ) : ℝ) < ((m * m : ℤ) : ℝ) := by exact_mod_cast hd
    push_cast at this ⊢
    nlinarith
  · intro h
    have hm : (0 : ℝ) ≤ (m : ℝ) := le_trans (Real.sqrt_nonneg _) (le_of_lt h)
    have hd : Real.sqrt (d : ℝ) < (m : ℝ) := h
    by_cases hm0 : (0 : ℤ) < m
    · refine ⟨hm0, ?_⟩
      have hm' : (0 : ℝ) < (m : ℝ) := by exact_mod_cast hm0
      rw [Real.sqrt_lt' hm'] at hd
      have : ((d : ℕ) : ℝ) < ((m : ℝ)) * ((m : ℝ)) := by nlinarith
      exact_mod_cast this
    · exfalso
      have : (m : ℝ) ≤ 0 := by exact_mod_cast (not_lt.mp hm0)
      have hs : (0 : ℝ) ≤ Real.sqrt (d : ℝ) := Real.sqrt_nonneg _
      linarith

/-- The integer test `distGtB` decides exactly the real comparison
`m < sqrt d` used by the direct walker's clearance guard. -/
theorem distGtB_iff (d : ℕ) (m : ℤ) : distGtB d m = true ↔ (m : ℝ) < Real.sqrt (d : ℝ) := by
  simp only [distGtB, Bool.or_eq_true, decide_eq_true_eq]
  constructor
  · rintro (hm | hd)
    · have hm' : (m : ℝ) < 0 := by exact_mod_cast hm
      exact lt_of_lt_of_le hm' (Real.sqrt_nonneg _)
    · by_cases hm0 : m < 0
      · have hm' : (m : ℝ) < 0 := by exact_mod_cast hm0
        exact lt_of_lt_of_le hm' (Real.sqrt_nonneg _)
      · have hm' : (0 : ℝ) ≤ (m : ℝ) := by exact_mod_cast (not_lt.mp hm0)
        rw [Real.lt_sqrt hm']
        have : ((m * m : ℤ) : ℝ) < ((d : ℤ) : ℝ) := by exact_mod_cast hd
        push_cast at this ⊢
        nlinarith
  · intro h
    by_cases hm0 : m < 0
    · exact Or.inl hm0
    · right
      have hm' : (0 : ℝ) ≤ (m : ℝ) := by exact_mod_cast (not_lt.mp hm0)
      rw [Real.lt_sqrt hm'] at h
      have : ((m : ℝ)) * ((m : ℝ)) < ((d : ℕ) : ℝ) := by nlinarith
      exact_mod_cast this

/-- The direct walker's output is never empty (it always begins with the
start point). -/
theorem find_direct_path_ne_nil (v : VisionBasedNavigator) (s g : Pos)
    (obs : List Pos) : v.find_direct_path s g obs ≠ [] := by
  intro he
  have hh := fdpGo_head v g obs 101 s s []
  rw [VisionBasedNavigator.find_direct_path] at he
  rw [he] at hh
  cases hh

/-- The third ladder rung never returns an empty path: a nonempty A* result is
returned as is and every other case falls back to the direct walker. -/
theorem adaptive_margin_3_some_ne_nil (v : VisionBasedNavigator) (s g : Pos)
    (obs : List Pos) (fuel : ℕ) (p : List Pos)
    (h : v.find_path_with_adaptive_margin_3 s g obs fuel = some p) : p ≠ [] := by
  cases h1 : (v.find_pathFull s g obs (v.safety_margin - 20) fuel).1 with
  | fuelOut =>
    simp only [VisionBasedNavigator.find_path_with_adaptive_margin_3, h1] at h
    exact Option.noConfusion h
  | found q =>
    simp only [VisionBasedNavigator.find_path_with_adaptive_margin_3, h1] at h
    by_cases hq : q.isEmpty = false
    · rw [if_pos hq, Option.some.injEq] at h
      subst h
      intro he
      rw [he] at hq
      simp at hq
    · rw [if_neg hq, Option.some.injEq] at h
      subst h
      exact find_direct_path_ne_nil v s g obs
  | noPath =>
    simp only [VisionBasedNavigator.find_path_with_adaptive_margin_3, h1,
      Option.some.injEq] at h
    subst h
    exact find_direct_path_ne_nil v s g obs

/-- The second ladder rung never returns an empty path. -/
theorem adaptive_margin_2_some_ne_nil (v : VisionBasedNavigator) (s g : Pos)
    (obs : List Pos) (fuel : ℕ) (p : List Pos)
    (h : v.find_path_with_adaptive_margin_2 s g obs fuel = some p) : p ≠ [] := by
  cases h1 : (v.find_pathFull s g obs (v.safety_margin - 10) fuel).1 with
  | fuelOut =>
    simp only [VisionBasedNavigator.find_path_with_adaptive_margin_2, h1] at h
    exact Option.noConfusion h
  | found q =>
    simp only [VisionBasedNavigator.find_path_with_adaptive_margin_2, h1] at h
    by_cases hq : q.isEmpty = false
    · rw [if_pos hq, Option.some.injEq] at h
      subst h
      intro he
      rw [he] at hq
      simp at hq
    · rw [if_neg hq] at h
      exact adaptive_margin_3_some_ne_nil v s g obs fuel p h
  | noPath =>
    simp only [VisionBasedNavigator.find_path_with_adaptive_margin_2, h1] at h
    exact adaptive_margin_3_some_ne_nil v s g obs fuel p h

/-- The adaptive-margin planner never returns an empty path, so the
`if not path` planning-failure arms of the vision navigation code are
unreachable. -/
theorem adaptive_margin_some_ne_nil (v : VisionBasedNavigator) (s g : Pos)
    (obs : List Pos) (fuel : ℕ) (p : List Pos)
    (h : v.find_path_with_adaptive_margin s g obs fuel = some p) : p ≠ [] := by
  cases h1 : (v.find_pathFull s g obs v.safety_margin fuel).1 with
  | fuelOut =>
    simp only [VisionBasedNavigator.find_path_with_adaptive_margin, h1] at h
    exact Option.noConfusion h
  | found q =>
    simp only [VisionBasedNavigator.find_path_with_adaptive_margin, h1] at h
    by_cases hq : q.isEmpty = false
    · rw [if_pos hq, Option.some.injEq] at h
      subst h
      intro he
      rw [he] at hq
      simp at hq
    · rw [if_neg hq] at h
      exact adaptive_margin_2_some_ne_nil v s g obs fuel p h
  | noPath =>
    simp only [VisionBasedNavigator.find_path_with_adaptive_margin, h1] at h
    exact adaptive_margin_2_some_ne_nil v s g obs fuel p h

/-! ## Claim theorems -/

set_option maxRecDepth 1000000

/-- C1: the claim states that after a collision the engine executes the fresh
path from its first waypoint and issues no waypoint of the superseded path.
The code instead continues Python's `enumerate` iterator over the superseded
list (the `i = -1` / `i = 0` assignments and the rebinding of the path
variable do not affect the iterator).  In the concrete vision run below, the
collision at step 0 triggers replanning that yields `visionNewPath`, yet the
full move trace equals the superseded `visionOldPath`: the command issued
right after the collision is `(108,100)`, a waypoint of the superseded path
that does not occur in the new path, and the new path's first waypoint
`(300,300)` is never issued.  The analogous grid run issues `(30,0)` (pixel
coordinates of the superseded path's second waypoint) instead of re-issuing
the recomputed path from its first waypoint `(0,0)`. -/
theorem claim_C1_code_divergence :
    visionNavigatorDefault.navigate_to_goal visionEnvCollisionFirst 50 =
      (some false, visionOldPath) ∧
    visionNavigatorDefault.find_path_with_adaptive_margin (100, 100) (200, 100)
      [(100, 100)] 50 = some visionOldPath ∧
    visionNavigatorDefault.find_path_with_adaptive_margin (300, 300) (300, 380)
      [(300, 300)] 50 = some visionNewPath ∧
    visionOldPath[1]? = some (108, 100) ∧
    ((108, 100) : Pos) ∈ visionOldPath.tail ∧
    ((108, 100) : Pos) ∉ visionNewPath ∧
    visionNewPath.head? = some (300, 300) ∧
    testNavA.sensedObstacles = [] ∧
    testNavA.navigate_to_goal gridEnvCollisionFirst 50 = (some false, [(0, 0), (30, 0)]) ∧
    (testNavA.find_pathFull [] (0, 0) (3, 0) 50).1 = .found [(0, 0), (1, 0), (2, 0), (3, 0)] ∧
    RobotNavigator.optimize_path [] [(0, 0), (1, 0), (2, 0), (3, 0)] = [(0, 0), (3, 0)] ∧
    ((30, 0) : Pos) ≠ (0 * testNavA.grid_size, 0 * testNavA.grid_size) := by
  decide

/-- C2 (counterexample): with the repository's constants
(obstacle size 25, robot size 18, cell size 10) the claimed margin
`ceil((25 + 18) / (2 * 10)) = 3`, yet the in-bounds cell `(18,12)` at
Chebyshev distance 3 from the obstacle's center cell `(15,12)` is not blocked:
the code uses floor division, giving margin 2. -/
theorem claim_C2_counterexample :
    (⌈(((25 : ℚ) + 18) / (2 * 10))⌉ = 3) ∧
    (Int.fdiv 150 10, Int.fdiv 120 10) = ((15, 12) : Pos) ∧
    cheb (18, 12) (15, 12) ≤ 3 ∧
    (0 ≤ (18 : ℤ) ∧ (18 : ℤ) < robotNavigatorDefault.grid_width ∧
      0 ≤ (12 : ℤ) ∧ (12 : ℤ) < robotNavigatorDefault.grid_height) ∧
    ((18, 12) : Pos) ∉ robotNavigatorDefault.inflateCells 150 120 25 := by
  refine ⟨?_, by decide, by decide, by decide, by decide⟩
  rw [show (((25 : ℚ) + 18) / (2 * 10)) = 43 / 20 by norm_num, Int.ceil_eq_iff]
  norm_num

/-- C2 (amended): for every obstacle with center `(ox, oy)` and size `s`, the
inflation loop blocks exactly the in-bounds cells within Chebyshev distance
`margin` of the obstacle's center cell, where
`margin = max(1, (s + robot_size) // (2 * cell_size))` (floor division with a
lower bound of one, not the ceiling the claim states). -/
theorem claim_C2_amended : ∀ (nav : RobotNavigator) (ox oy s : ℤ) (p : Pos),
    p ∈ nav.inflateCells ox oy s ↔
      0 ≤ p.1 ∧ p.1 < nav.grid_width ∧ 0 ≤ p.2 ∧ p.2 < nav.grid_height ∧
        cheb p (Int.fdiv ox nav.grid_size, Int.fdiv oy nav.grid_size) ≤
          max 1 (Int.fdiv (s + nav.robot_size) (2 * nav.grid_size)) :=
  mem_inflateCells

/-- C3 (counterexample): the direct walker's cap check runs after the append,
so a run from `(0,0)` toward the far corner `(649,599)` with no obstacles
returns a path of 101 points, exceeding the claimed bound of 100. -/
theorem claim_C3_counterexample :
    (visionNavigatorDefault.find_direct_path (0, 0) (649, 599) []).length = 101 := by
  decide

/-- C3 (amended): for every start, goal and obstacle set, the direct walker's
path has at most 101 points (not 100: the `len(path) > 100` break runs after
the append) and its first element is the given start. -/
theorem claim_C3_amended : ∀ (v : VisionBasedNavigator) (s g : Pos) (obstacles : List Pos),
    (v.find_direct_path s g obstacles).length ≤ 101 ∧
    (v.find_direct_path s g obstacles).head? = some s := by
  intro v s g obstacles
  exact ⟨fdpGo_length_le v g obstacles 101 s [s] (by simp),
    fdpGo_head v g obstacles 101 s s []⟩

/-- C4: the adaptive-margin planner returns the first of the three A*
attempts (configured margin, margin−10, margin−20) that yields a nonempty
path, and only if all three fail does it return the direct walker's result.
In particular a failure at margin M followed by a success at M−10 returns the
M−10 path. -/
theorem claim_C4 : ∀ (v : VisionBasedNavigator) (s g : Pos) (obs : List Pos) (fuel : ℕ),
    (∀ p, (v.find_pathFull s g obs v.safety_margin fuel).1 = .found p → p ≠ [] →
      v.find_path_with_adaptive_margin s g obs fuel = some p) ∧
    (∀ p, (v.find_pathFull s g obs v.safety_margin fuel).1 = .noPath →
      (v.find_pathFull s g obs (v.safety_margin - 10) fuel).1 = .found p → p ≠ [] →
      v.find_path_with_adaptive_margin s g obs fuel = some p) ∧
    (∀ p, (v.find_pathFull s g obs v.safety_margin fuel).1 = .noPath →
      (v.find_pathFull s g obs (v.safety_margin - 10) fuel).1 = .noPath →
      (v.find_pathFull s g obs (v.safety_margin - 20) fuel).1 = .found p → p ≠ [] →
      v.find_path_with_adaptive_margin s g obs fuel = some p) ∧
    ((v.find_pathFull s g obs v.safety_margin fuel).1 = .noPath →
      (v.find_pathFull s g obs (v.safety_margin - 10) fuel).1 = .noPath →
      (v.find_pathFull s g obs (v.safety_margin - 20) fuel).1 = .noPath →
      v.find_path_with_adaptive_margin s g obs fuel =
        some (v.find_direct_path s g obs)) := by
  intro v s g obs fuel
  refine ⟨?_, ?_, ?_, ?_⟩
  · intro p h1 h2
    simp only [VisionBasedNavigator.find_path_with_adaptive_margin, h1]
    cases p with
    | nil => exact absurd rfl h2
    | cons a l => simp
  · intro p h1 h2 h3
    simp only [VisionBasedNavigator.find_path_with_adaptive_margin, h1,
      VisionBasedNavigator.find_path_with_adaptive_margin_2, h2]
    cases p with
    | nil => exact absurd rfl h3
    | cons a l => simp
  · intro p h1 h2 h3 h4
    simp only [VisionBasedNavigator.find_path_with_adaptive_margin, h1,
      VisionBasedNavigator.find_path_with_adaptive_margin_2, h2,
      VisionBasedNavigator.find_path_with_adaptive_margin_3, h3]
    cases p with
    | nil => exact absurd rfl h4
    | cons a l => simp
  · intro h1 h2 h3
    simp only [VisionBasedNavigator.find_path_with_adaptive_margin, h1,
      VisionBasedNavigator.find_path_with_adaptive_margin_2, h2,
      VisionBasedNavigator.find_path_with_adaptive_margin_3, h3]

/-- C4 (witness): concrete instance where A* fails at the configured margin
35 but succeeds at margin 25, and the adaptive planner returns the margin-25
path. -/
theorem claim_C4_witness :
    (visionNavigatorDefault.find_pathFull (100, 100) (100, 140) [(100, 80)]
      visionNavigatorDefault.safety_margin 50).1 = .noPath ∧
    (visionNavigatorDefault.find_pathFull (100, 100) (100, 140) [(100, 80)]
      (visionNavigatorDefault.safety_margin - 10) 50).1 =
        .found [(100, 100), (100, 108)] ∧
    visionNavigatorDefault.find_path_with_adaptive_margin (100, 100) (100, 140)
      [(100, 80)] 50 = some [(100, 100), (100, 108)] :=
  ⟨by decide, by decide,
    (claim_C4 visionNavigatorDefault (100, 100) (100, 140) [(100, 80)] 50).2.1
      [(100, 100), (100, 108)] (by decide) (by decide) (by decide)⟩

/-- C5 (counterexample): the grid A* pushes the start cell without checking
it against the obstacle set, so with the blocked start `(0,0)` equal to the
goal the returned path `[(0,0)]` passes through a blocked cell. -/
theorem claim_C5_counterexample :
    (testNavA.find_pathFull [(0, 0)] (0, 0) (0, 0) 50).1 = .found [(0, 0)] ∧
    ((0, 0) : Pos) ∈ ([(0, 0)] : List Pos) := by
  refine ⟨by decide, by decide⟩

/-- C5 (amended): every position of a path returned by the grid planner's A*
other than the first is an unblocked cell, and the first position is the
given start (which the search never checks against the obstacle set). -/
theorem claim_C5_amended : ∀ (nav : RobotNavigator) (obstacles : List Pos) (s g : Pos)
    (fuel : ℕ) (p : List Pos), (nav.find_pathFull obstacles s g fuel).1 = .found p →
    p.head? = some s ∧ ∀ q ∈ p.tail, q ∉ obstacles := by
  intro nav obstacles s g fuel p h
  have hpair : nav.find_pathFull obstacles s g fuel =
      (.found p, (nav.find_pathFull obstacles s g fuel).2) := by
    rw [← h]
  have := astarGo_found_spec (nav.gridParams obstacles g) s (fun q => q ∉ obstacles)
    (fun c n _ => gridMoveCost_ge c n)
    (fun c n hn => (grid_neighbors_sound nav obstacles c n hn).2.2.2.2)
    fuel _ p _ (astarRun_init_inv _ s) hpair
  exact ⟨this.1, this.2.1⟩

/-- C5 (witness): a concrete run around the blocked cell `(1,1)`. -/
theorem claim_C5_witness :
    ([(0, 0), (1, 0), (2, 0)] : List Pos).head? = some (0, 0) ∧
    ∀ q ∈ ([(0, 0), (1, 0), (2, 0)] : List Pos).tail, q ∉ ([(1, 1)] : List Pos) :=
  claim_C5_amended testNavA [(1, 1)] (0, 0) (2, 0) 50 [(0, 0), (1, 0), (2, 0)] (by decide)

/-- C6 (counterexample): the optimizer appends the immediate next input
waypoint without a line-clearance check, so on the input
`[(0,0),(1,0),(2,0),(3,0)]` with the blocked cell `(1,0)` the output equals
the input and its first consecutive pair fails the Bresenham check. -/
theorem claim_C6_counterexample :
    RobotNavigator.optimize_path [(1, 0)] [(0, 0), (1, 0), (2, 0), (3, 0)] =
      [(0, 0), (1, 0), (2, 0), (3, 0)] ∧
    RobotNavigator.is_line_clear [(1, 0)] (0, 0) (1, 0) = false := by
  refine ⟨by decide, by decide⟩

/-- C6 (amended): for every input path the optimizer's output is a
subsequence of the input preserving the first and last points with length at
most the input's length; and when every consecutive pair of the input passes
the Bresenham check, every consecutive pair of the output does too (pairs the
optimizer takes verbatim from the input are never re-checked, so the
line-clearance guarantee needs that hypothesis). -/
theorem claim_C6_amended : ∀ (obstacles path : List Pos),
    (RobotNavigator.optimize_path obstacles path).Sublist path ∧
    (RobotNavigator.optimize_path obstacles path).head? = path.head? ∧
    (RobotNavigator.optimize_path obstacles path).getLast? = path.getLast? ∧
    (RobotNavigator.optimize_path obstacles path).length ≤ path.length ∧
    (List.Chain' (fun a b => RobotNavigator.is_line_clear obstacles a b = true) path →
      List.Chain' (fun a b => RobotNavigator.is_line_clear obstacles a b = true)
        (RobotNavigator.optimize_path obstacles path)) := by
  intro obstacles path
  by_cases hlen : path.length ≤ 2
  · rw [RobotNavigator.optimize_path, if_pos hlen]
    exact ⟨List.Sublist.refl _, rfl, rfl, le_refl _, id⟩
  · rw [RobotNavigator.optimize_path, if_neg hlen]
    have hlen3 : 3 ≤ path.length := by omega
    obtain ⟨rest, he, hsub, hrlen, hlast, hchain⟩ :=
      optGo_spec obstacles path path.length 0 [path.getD 0 (0, 0)] (by omega) (by omega)
    rw [he]
    have hout : [path.getD 0 (0, 0)] ++ rest = path.getD 0 (0, 0) :: rest := rfl
    rw [hout]
    have h0 : 0 < path.length := by omega
    have hg0 : path.getD 0 (0, 0) = path[0] := List.getD_eq_getElem path (0, 0) h0
    refine ⟨?_, ?_, ?_, ?_, ?_⟩
    · have hss : path.getD 0 (0, 0) :: rest |>.Sublist (path[0] :: path.drop 1) := by
        rw [← hg0]
        exact hsub.cons₂ _
      rw [← List.drop_eq_getElem_cons h0, List.drop_zero] at hss
      exact hss
    · rcases path with _ | ⟨a, t⟩
      · simp at hlen3
      · rfl
    · have hl := hlast (by omega)
      rw [getLast?_cons_of_ne_nil _ _ _ hl]
      have hlast_idx : path.length - 1 < path.length := by omega
      rw [List.getLast?_eq_getElem?, List.getElem?_eq_getElem hlast_idx,
        List.getD_eq_getElem path (0, 0) hlast_idx]
    · simp only [List.length_cons]
      omega
    · intro hch
      apply hchain
      intro k hk
      have hkk := List.chain'_iff_get.mp hch k (by omega)
      rwa [List.get_eq_getElem, List.get_eq_getElem,
        ← List.getD_eq_getElem path (0, 0) (by omega : k < path.length),
        ← List.getD_eq_getElem path (0, 0) (by omega : k + 1 < path.length)] at hkk

/-- C6 (witness): a concrete three-point input whose consecutive pairs all
pass the Bresenham check; the optimizer's guarantees instantiated there. -/
theorem claim_C6_witness :
    (RobotNavigator.optimize_path [(5, 5)] [(0, 0), (1, 1), (2, 2)]).Sublist
      [(0, 0), (1, 1), (2, 2)] ∧
    (RobotNavigator.optimize_path [(5, 5)] [(0, 0), (1, 1), (2, 2)]).head? =
      ([(0, 0), (1, 1), (2, 2)] : List Pos).head? ∧
    (RobotNavigator.optimize_path [(5, 5)] [(0, 0), (1, 1), (2, 2)]).getLast? =
      ([(0, 0), (1, 1), (2, 2)] : List Pos).getLast? ∧
    (RobotNavigator.optimize_path [(5, 5)] [(0, 0), (1, 1), (2, 2)]).length ≤ 3 ∧
    List.Chain' (fun a b => RobotNavigator.is_line_clear [(5, 5)] a b = true)
      (RobotNavigator.optimize_path [(5, 5)] [(0, 0), (1, 1), (2, 2)]) :=
  ⟨(claim_C6_amended [(5, 5)] [(0, 0), (1, 1), (2, 2)]).1,
   (claim_C6_amended [(5, 5)] [(0, 0), (1, 1), (2, 2)]).2.1,
   (claim_C6_amended [(5, 5)] [(0, 0), (1, 1), (2, 2)]).2.2.1,
   (claim_C6_amended [(5, 5)] [(0, 0), (1, 1), (2, 2)]).2.2.2.1,
   (claim_C6_amended [(5, 5)] [(0, 0), (1, 1), (2, 2)]).2.2.2.2
     (List.Chain'.cons (by decide) (List.Chain'.cons (by decide)
       (List.chain'_singleton _)))⟩

/-- C7 (counterexample): in the concrete grid run from `(0,0)` to `(1,1)` the
final cumulative cost assigned to the diagonal step is the scaled integer 707,
i.e. the float 1.414, which differs from the claimed √2. -/
theorem claim_C7_counterexample :
    (testNavA.find_pathFull [] (0, 0) (1, 1) 50).1 = .found [(0, 0), (1, 1)] ∧
    alookup (testNavA.find_pathFull [] (0, 0) (1, 1) 50).2.gScore (1, 1) = some 707 ∧
    gReal 707 ≠ Real.sqrt 2 := by
  refine ⟨by decide, by decide, ?_⟩
  intro h
  have h707 : gReal 707 = (707 : ℝ) / 500 := by
    rw [gReal]
    norm_num
  rw [h707] at h
  have h2 : ((707 : ℝ) / 500) ^ 2 = 2 := by
    rw [h]
    exact Real.sq_sqrt (by norm_num)
  norm_num at h2

/-- C7 (amended): whenever the grid planner's relaxation step updates a
neighbor `n` of `current` (because `n` is new or improves), the g-score
assigned to `n` is the predecessor's g-score plus exactly 1 for an
axis-parallel step and exactly 1.414 (the literal in the source, not √2) for
a diagonal step, and the key pushed on the heap denotes the float
`g + sqrt((nx-gx)² + (ny-gy)²)`, i.e. the tentative g-score plus the
Euclidean distance from `n` to the goal. -/
theorem claim_C7_amended : ∀ (nav : RobotNavigator) (obstacles : List Pos) (goal : Pos)
    (st : AState) (current n : Pos),
    (alookup st.gScore n = none ∨
      ∃ gn, alookup st.gScore n = some gn ∧
        (alookup st.gScore current).getD 0 + gridMoveCost current n < gn) →
    alookup (relaxNeighbor (nav.gridParams obstacles goal) current st n).gScore n =
      some ((alookup st.gScore current).getD 0 + gridMoveCost current n) ∧
    (relaxNeighbor (nav.gridParams obstacles goal) current st n).openSet.head? =
      some (⟨(alookup st.gScore current).getD 0 + gridMoveCost current n, distSq n goal⟩, n) ∧
    FKey.val ⟨(alookup st.gScore current).getD 0 + gridMoveCost current n, distSq n goal⟩ =
      gReal ((alookup st.gScore current).getD 0 + gridMoveCost current n) +
        Real.sqrt (((n.1 - goal.1 : ℤ) : ℝ) ^ 2 + ((n.2 - goal.2 : ℤ) : ℝ) ^ 2) ∧
    gReal (gridMoveCost current n) =
      (if (n.1 - current.1).natAbs + (n.2 - current.2).natAbs = 2 then (1.414 : ℝ)
       else 1) := by
  intro nav obstacles goal st current n hyp
  have hupd : (match alookup st.gScore n with
      | none => true
      | some gn => decide ((alookup st.gScore current).getD 0 + gridMoveCost current n < gn)) =
        true := by
    rcases hyp with h | ⟨gn, hgn, hlt⟩
    · rw [h]
    · rw [hgn]
      simpa using hlt
  have hrel : relaxNeighbor (nav.gridParams obstacles goal) current st n =
      { openSet := (⟨(alookup st.gScore current).getD 0 + gridMoveCost current n,
            distSq n goal⟩, n) :: st.openSet,
        cameFrom := (n, current) :: st.cameFrom,
        gScore := (n, (alookup st.gScore current).getD 0 + gridMoveCost current n) ::
          st.gScore } := by
    simp only [relaxNeighbor, RobotNavigator.gridParams]
    rw [if_pos hupd]
  refine ⟨?_, ?_, ?_, ?_⟩
  · rw [hrel, alookup_cons, if_pos rfl]
  · rw [hrel]
    rfl
  · rw [FKey.val, distSq_cast]
    rfl
  · rw [gridMoveCost, gReal]
    split
    · norm_num
    · norm_num

/-- C7 (witness): the amended statement instantiated at a fresh neighbor
`(1,1)` of the start `(0,0)` with g-score 0: the assigned g-score is
`0 + 1.414` (scaled: 707) and the pushed key denotes `1.414 + sqrt 2`. -/
theorem claim_C7_witness :
    alookup (relaxNeighbor (testNavA.gridParams [] (1, 1)) (0, 0)
        ⟨[], [], [((0, 0), 0)]⟩ (1, 1)).gScore (1, 1) =
      some ((alookup [((0, 0), (0 : ℤ))] (0, 0)).getD 0 + gridMoveCost (0, 0) (1, 1)) ∧
    (relaxNeighbor (testNavA.gridParams [] (1, 1)) (0, 0)
        ⟨[], [], [((0, 0), 0)]⟩ (1, 1)).openSet.head? =
      some (⟨(alookup [((0, 0), (0 : ℤ))] (0, 0)).getD 0 + gridMoveCost (0, 0) (1, 1),
        distSq (1, 1) (1, 1)⟩, (1, 1)) ∧
    FKey.val ⟨(alookup [((0, 0), (0 : ℤ))] (0, 0)).getD 0 + gridMoveCost (0, 0) (1, 1),
        distSq (1, 1) (1, 1)⟩ =
      gReal ((alookup [((0, 0), (0 : ℤ))] (0, 0)).getD 0 + gridMoveCost (0, 0) (1, 1)) +
        Real.sqrt ((((1 : ℤ) - 1 : ℤ) : ℝ) ^ 2 + (((1 : ℤ) - 1 : ℤ) : ℝ) ^ 2) ∧
    gReal (gridMoveCost (0, 0) (1, 1)) =
      (if ((1 : ℤ) - 0).natAbs + ((1 : ℤ) - 0).natAbs = 2 then (1.414 : ℝ) else 1) :=
  claim_C7_amended testNavA [] (1, 1) ⟨[], [], [((0, 0), 0)]⟩ (0, 0) (1, 1)
    (Or.inl (by decide))

/-- C8: for every path reconstructed by either planner's A*, the final
g-scores (as the floats `gReal` of the scaled integers) are non-decreasing
from the first point of the path to the last. -/
theorem claim_C8 :
    (∀ (nav : RobotNavigator) (obstacles : List Pos) (s g : Pos) (fuel : ℕ)
      (p : List Pos) (st' : AState),
      nav.find_pathFull obstacles s g fuel = (.found p, st') →
      List.Chain' (fun a b => gReal (gScoreOf st' a) ≤ gReal (gScoreOf st' b)) p) ∧
    (∀ (v : VisionBasedNavigator) (s g : Pos) (obstacles : List Pos) (margin : ℤ)
      (fuel : ℕ) (p : List Pos) (st' : AState),
      v.find_pathFull s g obstacles margin fuel = (.found p, st') →
      List.Chain' (fun a b => gReal (gScoreOf st' a) ≤ gReal (gScoreOf st' b)) p) := by
  constructor
  · intro nav obstacles s g fuel p st' h
    have hsp := astarGo_found_spec (nav.gridParams obstacles g) s (fun _ => True)
      (fun c n _ => gridMoveCost_ge c n) (fun _ _ _ => trivial)
      fuel _ p st' (astarRun_init_inv _ s) h
    refine hsp.2.2.imp ?_
    intro a b hab
    rw [gReal, gReal]
    have hc : ((gScoreOf st' a : ℤ) : ℝ) ≤ ((gScoreOf st' b : ℤ) : ℝ) := by exact_mod_cast hab
    linarith
  · intro v s g obstacles margin fuel p st' h
    have hsp := astarGo_found_spec (v.visionParams obstacles g margin) s (fun _ => True)
      (fun _ _ _ => le_refl 500) (fun _ _ _ => trivial)
      fuel _ p st' (astarRun_init_inv _ s) h
    refine hsp.2.2.imp ?_
    intro a b hab
    rw [gReal, gReal]
    have hc : ((gScoreOf st' a : ℤ) : ℝ) ≤ ((gScoreOf st' b : ℤ) : ℝ) := by exact_mod_cast hab
    linarith

/-- C8 (witness): the monotone-g property instantiated on a concrete grid run
and a concrete continuous-planner run. -/
theorem claim_C8_witness :
    List.Chain'
      (fun a b =>
        gReal (gScoreOf (testNavA.find_pathFull [(1, 1)] (0, 0) (2, 0) 50).2 a) ≤
          gReal (gScoreOf (testNavA.find_pathFull [(1, 1)] (0, 0) (2, 0) 50).2 b))
      [(0, 0), (1, 0), (2, 0)] ∧
    List.Chain'
      (fun a b =>
        gReal (gScoreOf
            (visionNavigatorDefault.find_pathFull (100, 100) (100, 140) [(100, 80)] 25 50).2 a) ≤
          gReal (gScoreOf
            (visionNavigatorDefault.find_pathFull (100, 100) (100, 140) [(100, 80)] 25 50).2 b))
      [(100, 100), (100, 108)] :=
  ⟨claim_C8.1 testNavA [(1, 1)] (0, 0) (2, 0) 50 [(0, 0), (1, 0), (2, 0)] _
      (Prod.ext (by decide) rfl),
   claim_C8.2 visionNavigatorDefault (100, 100) (100, 140) [(100, 80)] 25 50
      [(100, 100), (100, 108)] _ (Prod.ext (by decide) rfl)⟩

/-- C9 (counterexample): runs failing for different reasons all produce the
same bare boolean result `False`.  Grid navigator: a failed obstacle fetch, an
exhausted A* search, a rejected first move command, and a completed path with
the goal never confirmed; vision navigator: a failed canvas capture and a
capture in which neither robot nor goal is detected.  In particular the
sensing-failure and planning-failure grid runs return identical values, as do
the two vision runs, so the failure causes are not distinguishable in the
result. -/
theorem claim_C9_counterexample :
    gridEnvSenseFail.obstaclesOk = false ∧
    (testNavB.find_pathFull testNavB.sensedObstacles (0, 0) (2, 2) 100).1 = .noPath ∧
    testNavA.navigate_to_goal gridEnvSenseFail 50 = (some false, []) ∧
    testNavB.navigate_to_goal gridEnvQuiet 100 = (some false, []) ∧
    (testNavA.navigate_to_goal gridEnvMoveFail 50).1 = some false ∧
    (testNavA.navigate_to_goal gridEnvQuiet 50).1 = some false ∧
    testNavA.navigate_to_goal gridEnvSenseFail 50 =
      testNavB.navigate_to_goal gridEnvQuiet 100 ∧
    visionEnvCapFail.captures 0 = none ∧
    visionEnvDetectFail.captures 0 = some senseDataBlind ∧
    senseDataBlind.robot = none ∧
    visionNavigatorDefault.navigate_to_goal visionEnvCapFail 50 = (some false, []) ∧
    visionNavigatorDefault.navigate_to_goal visionEnvCapFail 50 =
      visionNavigatorDefault.navigate_to_goal visionEnvDetectFail 50 := by
  refine ⟨rfl, by decide, by decide, by decide, by decide, by decide, by decide, rfl, rfl,
    rfl, by decide, by decide⟩

/-- C9 (amended): in both navigators `navigate_to_goal` surfaces every failure
as the same bare boolean `False`, carrying no distinguishable kind.  Grid
navigator: obstacle-fetch failure, A* planning failure, a rejected move
command, and finishing the path without goal confirmation all yield `False`.
Vision navigator: a failed canvas capture, a capture detecting no robot or no
goal (at the initial sense or after a collision), a rejected move command, and
finishing the path without goal confirmation all yield `False`; a top-level
planning failure cannot occur there because the adaptive ladder always falls
back to the direct walker's never-empty path. -/
theorem claim_C9_amended :
    (∀ (nav : RobotNavigator) (env : GridEnv) (fuel : ℕ),
      (env.obstaclesOk = false → nav.navigate_to_goal env fuel = (some false, [])) ∧
      (env.obstaclesOk = true →
        (nav.find_pathFull nav.sensedObstacles (nav.get_robot_position (env.posResponses 0))
          nav.goal fuel).1 = .noPath →
        nav.navigate_to_goal env fuel = (some false, [])) ∧
      (∀ (obstacles : List Pos) (step : Pos) (rest pathVar : List Pos) (mq cq gq pq : ℕ),
        env.moveResults mq = false →
        nav.execLoop obstacles env fuel (step :: rest) pathVar mq cq gq pq =
          (some false, [(step.1 * nav.grid_size, step.2 * nav.grid_size)])) ∧
      (∀ (obstacles pathVar : List Pos) (mq cq gq pq : ℕ),
        env.goalResults gq = false →
        nav.execLoop obstacles env fuel [] pathVar mq cq gq pq = (some false, []))) ∧
    (∀ (v : VisionBasedNavigator) (env : VisionEnv) (fuel : ℕ),
      (env.captures 0 = none → v.navigate_to_goal env fuel = (some false, [])) ∧
      (∀ sense : SenseData, env.captures 0 = some sense →
        sense.robot = none ∨ sense.goal = none →
        v.navigate_to_goal env fuel = (some false, [])) ∧
      (∀ (step : Pos) (rest : List Pos) (i : ℕ) (pathVar : List Pos) (mq cq gq capq : ℕ),
        env.moveResults mq = false →
        v.execLoop env fuel (step :: rest) i pathVar mq cq gq capq = (some false, [step])) ∧
      (∀ (step : Pos) (rest : List Pos) (i : ℕ) (pathVar : List Pos) (mq cq gq capq : ℕ),
        env.moveResults mq = true → i % 5 = 0 → env.collisionResults cq = true →
        env.captures capq = none →
        v.execLoop env fuel (step :: rest) i pathVar mq cq gq capq = (some false, [step])) ∧
      (∀ (step : Pos) (rest : List Pos) (i : ℕ) (pathVar : List Pos) (mq cq gq capq : ℕ)
        (sense : SenseData),
        env.moveResults mq = true → i % 5 = 0 → env.collisionResults cq = true →
        env.captures capq = some sense → sense.robot = none ∨ sense.goal = none →
        v.execLoop env fuel (step :: rest) i pathVar mq cq gq capq = (some false, [step])) ∧
      (∀ (i : ℕ) (pathVar : List Pos) (mq cq gq capq : ℕ),
        env.goalResults gq = false →
        v.execLoop env fuel [] i pathVar mq cq gq capq = (some false, []))) ∧
    (∀ (v : VisionBasedNavigator) (s g : Pos) (obstacles : List Pos) (fuel : ℕ)
      (p : List Pos),
      v.find_path_with_adaptive_margin s g obstacles fuel = some p → p ≠ []) := by
  refine ⟨?_, ?_, ?_⟩
  · intro nav env fuel
    refine ⟨?_, ?_, ?_, ?_⟩
    · intro h
      rw [RobotNavigator.navigate_to_goal, RobotNavigator.get_obstacles, h]
      rfl
    · intro h1 h2
      rw [RobotNavigator.navigate_to_goal, RobotNavigator.get_obstacles, h1]
      simp only [if_true]
      rw [h2]
    · intro obstacles step rest pathVar mq cq gq pq h
      rw [RobotNavigator.execLoop, if_pos h]
    · intro obstacles pathVar mq cq gq pq h
      rw [RobotNavigator.execLoop, h]
  · intro v env fuel
    refine ⟨?_, ?_, ?_, ?_, ?_, ?_⟩
    · intro h
      rw [VisionBasedNavigator.navigate_to_goal, h]
    · intro sense hcap hor
      rw [VisionBasedNavigator.navigate_to_goal, hcap]
      obtain ⟨ro, go, obs⟩ := sense
      cases ro with
      | none => rfl
      | some r =>
        cases go with
        | none => rfl
        | some g => rcases hor with h | h <;> simp at h
    · intro step rest i pathVar mq cq gq capq h
      rw [VisionBasedNavigator.execLoop, if_pos h]
    · intro step rest i pathVar mq cq gq capq hmove hi hcol hcap
      have hm' : ¬(env.moveResults mq = false) := by simp [hmove]
      rw [VisionBasedNavigator.execLoop, if_neg hm', if_pos hi, if_pos hcol, hcap]
    · intro step rest i pathVar mq cq gq capq sense hmove hi hcol hcap hor
      have hm' : ¬(env.moveResults mq = false) := by simp [hmove]
      rw [VisionBasedNavigator.execLoop, if_neg hm', if_pos hi, if_pos hcol, hcap]
      obtain ⟨ro, go, obs⟩ := sense
      cases ro with
      | none =>
        cases go with
        | none => rfl
        | some g => rfl
      | some r =>
        cases go with
        | none => rfl
        | some g => rcases hor with h | h <;> simp at h
    · intro i pathVar mq cq gq capq h
      rw [VisionBasedNavigator.execLoop, h]
  · intro v s g obstacles fuel p h
    exact adaptive_margin_some_ne_nil v s g obstacles fuel p h

/-- C9 (witness): every failure arm of the amended statement fired on a
concrete oracle — grid sensing, planning, command and goal-not-confirmed
failures; vision capture, detection, command, post-collision recapture,
post-collision redetection and goal-not-confirmed failures — plus a concrete
nonempty adaptive-planner result. -/
theorem claim_C9_witness :
    testNavA.navigate_to_goal gridEnvSenseFail 50 = (some false, []) ∧
    testNavB.navigate_to_goal gridEnvQuiet 100 = (some false, []) ∧
    testNavA.execLoop [] gridEnvMoveFail 50 [(1, 2)] [] 0 0 0 1 =
      (some false, [(((1, 2) : Pos).1 * testNavA.grid_size,
        ((1, 2) : Pos).2 * testNavA.grid_size)]) ∧
    testNavA.execLoop [] gridEnvQuiet 50 [] [] 2 2 2 1 = (some false, []) ∧
    visionNavigatorDefault.navigate_to_goal visionEnvCapFail 50 = (some false, []) ∧
    visionNavigatorDefault.navigate_to_goal visionEnvDetectFail 50 = (some false, []) ∧
    visionNavigatorDefault.execLoop visionEnvMoveFail 50 [(5, 5)] 0 [] 0 0 0 1 =
      (some false, [(5, 5)]) ∧
    visionNavigatorDefault.execLoop visionEnvColCapFail 50 [(5, 5)] 0 [] 0 0 0 1 =
      (some false, [(5, 5)]) ∧
    visionNavigatorDefault.execLoop visionEnvColBlind 50 [(5, 5)] 0 [] 0 0 0 1 =
      (some false, [(5, 5)]) ∧
    visionNavigatorDefault.execLoop visionEnvCapFail 50 [] 3 [] 0 0 2 1 =
      (some false, []) ∧
    ([(0, 0)] : List Pos) ≠ [] :=
  ⟨(claim_C9_amended.1 testNavA gridEnvSenseFail 50).1 rfl,
   (claim_C9_amended.1 testNavB gridEnvQuiet 100).2.1 rfl (by decide),
   (claim_C9_amended.1 testNavA gridEnvMoveFail 50).2.2.1 [] (1, 2) [] [] 0 0 0 1 rfl,
   (claim_C9_amended.1 testNavA gridEnvQuiet 50).2.2.2 [] [] 2 2 2 1 rfl,
   (claim_C9_amended.2.1 visionNavigatorDefault visionEnvCapFail 50).1 rfl,
   (claim_C9_amended.2.1 visionNavigatorDefault visionEnvDetectFail 50).2.1 senseDataBlind
     rfl (Or.inl rfl),
   (claim_C9_amended.2.1 visionNavigatorDefault visionEnvMoveFail 50).2.2.1 (5, 5) [] 0 []
     0 0 0 1 rfl,
   (claim_C9_amended.2.1 visionNavigatorDefault visionEnvColCapFail 50).2.2.2.1 (5, 5) [] 0
     [] 0 0 0 1 rfl rfl rfl rfl,
   (claim_C9_amended.2.1 visionNavigatorDefault visionEnvColBlind 50).2.2.2.2.1 (5, 5) [] 0
     [] 0 0 0 1 senseDataBlind rfl rfl rfl rfl (Or.inl rfl),
   (claim_C9_amended.2.1 visionNavigatorDefault visionEnvCapFail 50).2.2.2.2.2 3 [] 0 0 2 1
     rfl,
   claim_C9_amended.2.2 visionNavigatorDefault (0, 0) (0, 0) [] 50 [(0, 0)] (by decide)⟩

/-- C10: `get_robot_position` returns `self.start` on every server response
(success, non-200 and exception alike); for the constructor's configuration
that constant is `(32,30)`; and a whole navigation run — result and move
trace, including any replanning triggered by collisions — is invariant under
arbitrary changes to the position-response stream, so replanning can only
ever start from the constant `self.start`, never from the robot's actual
location. -/
theorem claim_C10 :
    (∀ (nav : RobotNavigator) (r : PosResp), nav.get_robot_position r = nav.start) ∧
    (∀ r : PosResp, robotNavigatorDefault.get_robot_position r = (32, 30)) ∧
    (∀ (nav : RobotNavigator) (env : GridEnv) (fuel : ℕ) (f1 f2 : ℕ → PosResp),
      nav.navigate_to_goal { env with posResponses := f1 } fuel =
        nav.navigate_to_goal { env with posResponses := f2 } fuel) :=
  ⟨get_robot_position_const,
   fun r => get_robot_position_const robotNavigatorDefault r,
   navigate_pos_independent⟩
